import Mathlib

/-!
# Sensor power-and-read scheduler (`src/uss.cpp`)

A shallow embedding of the Arduino sketch `uss.cpp`: the configuration
constants, the five global scheduler variables, the relay output pins,
`setup()` and `loop()`, followed by theorems about them.

Modelling conventions

* `unsigned long` values are natural numbers below `ULONG_MOD = 2^32`; every
  `unsigned long` operation of the sketch is reduced modulo `ULONG_MOD`.
* `int` values (`currentSensorIndex`, `activeRelayIndex`) are integers.  The
  only `int` arithmetic is `currentSensorIndex++`, immediately followed by the
  comparison with `NUM_SENSORS`, itself an `int`; it cannot overflow.
* A C array read is `arrayGet`, which yields `none` outside the bounds of the
  array; `setup` and `loop` return `none` as soon as such a read happens.
* The clock: `Tick.now` is the number of milliseconds elapsed when `loop()` is
  entered, `millis()` returns it modulo `ULONG_MOD`, statements take no time
  and `delay(d)` takes exactly `d` milliseconds.
* `Serial` output is a list of structured log lines (`Event`), one per printed
  line of the sketch.
* Pin levels are booleans, `HIGH = true` and `LOW = false`; `State.pins` is the
  output latch of every pin, `Tick.digitalRead` the level seen on every input
  pin during the tick.
* Line 111 of the sketch, `Serial.print=") Value: ");`, is read as the call
  `Serial.print(") Value: ")`; it only contributes text to the sensor-value
  line.
* "Non-wrapping timestamps" means that the tick times stay below `ULONG_MOD`.
  The relay-off deadline `T + SENSOR_POWER_ON_DURATION` computed at a cycle
  start can still exceed `ULONG_MOD`; a theorem that also needs the deadline
  below `ULONG_MOD` has that as a hypothesis of its own.
-/

namespace Uss

/-- Modulus of `unsigned long` arithmetic on the target (32 bits). -/
def ULONG_MOD : Nat := 4294967296

/-- Pin level `HIGH`. -/
def HIGH : Bool := true

/-- Pin level `LOW`. -/
def LOW : Bool := false

/-- The configuration constants of the sketch (lines 1-14).  The two pin tables
are the arrays `sensorSignalPins[NUM_SENSORS]` and `relayControlPins[NUM_RELAYS]`. -/
structure Config where
  NUM_SENSORS : Nat
  NUM_RELAYS : Nat
  sensorSignalPins : List Nat
  relayControlPins : List Nat
  SENSOR_POWER_ON_DURATION : Nat
  SENSOR_READ_CYCLE_INTERVAL : Nat
  SENSOR_STABILIZATION_DELAY : Nat
  IS_RELAY_ACTIVE_HIGH : Bool

/-- The constants as written in the sketch.  `A0 .. A5` are board macros that
the sketch does not define; they are parameters here. -/
def sourceConfig (A0 A1 A2 A3 A4 A5 : Nat) : Config where
  NUM_SENSORS := 12
  NUM_RELAYS := 12
  sensorSignalPins := [2, 3, 4, 5, 6, 7, 8, 9, 10, 11, 12, 13]
  relayControlPins := [A0, A1, A2, A3, A4, A5, 22, 23, 24, 25, 26, 27]
  SENSOR_POWER_ON_DURATION := 1000
  SENSOR_READ_CYCLE_INTERVAL := 5000
  SENSOR_STABILIZATION_DELAY := 100
  IS_RELAY_ACTIVE_HIGH := true

/-- What the C declarations and the wiring guarantee about a configuration:
each array has as many entries as its declared size, there is at least one
sensor, every sensor has a relay, and no two relays share a control pin. -/
structure Config.WF (cfg : Config) : Prop where
  sensors_len : cfg.sensorSignalPins.length = cfg.NUM_SENSORS
  relays_len : cfg.relayControlPins.length = cfg.NUM_RELAYS
  sensors_pos : 0 < cfg.NUM_SENSORS
  sensors_le : cfg.NUM_SENSORS ≤ cfg.NUM_RELAYS
  relays_nodup : cfg.relayControlPins.Nodup

/-- The global variables of the sketch (lines 17-21) and the output latches of
the pins. -/
structure State where
  currentSensorIndex : Int
  lastCycleStartTime : Nat
  currentRelayOffTime : Nat
  isRelayCurrentlyActive : Bool
  activeRelayIndex : Int
  pins : Nat → Bool

/-- What the environment supplies to one call of `loop()`: the elapsed
milliseconds at entry and the level present on every input pin. -/
structure Tick where
  now : Nat
  digitalRead : Nat → Bool

/-- One printed line of the serial log. -/
inductive Event where
  | relayOff (t : Nat) (idx : Int)
  | cycleStart (t : Nat) (idx : Int)
  | relayOn (t : Nat) (idx : Int)
  | reading (t : Nat) (idx : Int) (pin : Nat) (high : Bool)
  deriving DecidableEq, Repr

/-- The expression `xs[i]` of C on an array `xs`: `none` out of bounds. -/
def arrayGet (xs : List Nat) (i : Int) : Option Nat :=
  if 0 ≤ i then xs[i.toNat]? else none

/-- The call `digitalWrite(pin, level)`. -/
def digitalWrite (pins : Nat → Bool) (pin : Nat) (level : Bool) : Nat → Bool :=
  Function.update pins pin level

/-- The value returned by `millis()` at the entry of the tick. -/
def millis (t : Tick) : Nat := t.now % ULONG_MOD

/-- Subtraction `a - b` of two `unsigned long` values. -/
def usub (a b : Nat) : Nat := (a % ULONG_MOD + ULONG_MOD - b % ULONG_MOD) % ULONG_MOD

/-- Addition `a + b` of two `unsigned long` values. -/
def uadd (a b : Nat) : Nat := (a + b) % ULONG_MOD

/-- The "Turn OFF" branch pair of the sketch (lines 47-51 and 66-70). -/
def writeRelayOff (cfg : Config) (pins : Nat → Bool) (pin : Nat) : Nat → Bool :=
  if cfg.IS_RELAY_ACTIVE_HIGH then digitalWrite pins pin LOW else digitalWrite pins pin HIGH

/-- The "Turn ON" branch pair of the sketch (lines 89-93). -/
def writeRelayOn (cfg : Config) (pins : Nat → Bool) (pin : Nat) : Nat → Bool :=
  if cfg.IS_RELAY_ACTIVE_HIGH then digitalWrite pins pin HIGH else digitalWrite pins pin LOW

/-- The first `for` loop of `setup()` (lines 37-42): `pinMode` does not touch
the output latches, only the reads of `sensorSignalPins[i]` matter. -/
def setupSensors (cfg : Config) : List Nat → Option Unit
  | [] => some ()
  | i :: rest =>
    match arrayGet cfg.sensorSignalPins i with
    | none => none
    | some _ => setupSensors cfg rest

/-- The second `for` loop of `setup()` (lines 45-52), over the values `i` takes. -/
def setupRelays (cfg : Config) : List Nat → (Nat → Bool) → Option (Nat → Bool)
  | [], pins => some pins
  | i :: rest, pins =>
    match arrayGet cfg.relayControlPins i with
    | none => none
    | some pin => setupRelays cfg rest (writeRelayOff cfg pins pin)

/-- The function `setup()`, started with the output latches `pins0`; the
globals take their initialisers (lines 17-21).  The wait for `Serial` is taken
to end. -/
def setup (cfg : Config) (pins0 : Nat → Bool) : Option State :=
  match setupSensors cfg (List.range cfg.NUM_SENSORS) with
  | none => none
  | some _ =>
    match setupRelays cfg (List.range cfg.NUM_RELAYS) pins0 with
    | none => none
    | some pins =>
      some { currentSensorIndex := 0
             lastCycleStartTime := 0
             currentRelayOffTime := 0
             isRelayCurrentlyActive := false
             activeRelayIndex := -1
             pins := pins }

/-- First part of `loop()` (lines 60-74): switch the active relay off once its
deadline is reached. -/
def manageActive (cfg : Config) (s : State) (currentTime : Nat) :
    Option (State × List Event) :=
  if s.isRelayCurrentlyActive && s.activeRelayIndex != -1 then
    if currentTime ≥ s.currentRelayOffTime then
      match arrayGet cfg.relayControlPins s.activeRelayIndex with
      | none => none
      | some pin =>
        some ({ s with pins := writeRelayOff cfg s.pins pin
                       isRelayCurrentlyActive := false
                       activeRelayIndex := -1 },
              [Event.relayOff currentTime s.activeRelayIndex])
    else some (s, [])
  else some (s, [])

/-- Second part of `loop()` (lines 77-123): start a power-on and read cycle. -/
def startCycle (cfg : Config) (s : State) (t : Tick) (currentTime : Nat) :
    Option (State × List Event) :=
  if !s.isRelayCurrentlyActive &&
      decide (usub currentTime s.lastCycleStartTime ≥ cfg.SENSOR_READ_CYCLE_INTERVAL) then
    let activeRelayIndex := s.currentSensorIndex
    match arrayGet cfg.relayControlPins activeRelayIndex with
    | none => none
    | some pin =>
      match arrayGet cfg.sensorSignalPins activeRelayIndex with
      | none => none
      | some sensorPin =>
        let sensorValue := t.digitalRead sensorPin
        let next := s.currentSensorIndex + 1
        some ({ currentSensorIndex := if next ≥ (cfg.NUM_SENSORS : Int) then 0 else next
                lastCycleStartTime := currentTime
                currentRelayOffTime := uadd currentTime cfg.SENSOR_POWER_ON_DURATION
                isRelayCurrentlyActive := true
                activeRelayIndex := activeRelayIndex
                pins := writeRelayOn cfg s.pins pin },
              [Event.cycleStart currentTime s.currentSensorIndex,
               Event.relayOn currentTime activeRelayIndex,
               Event.reading (uadd currentTime cfg.SENSOR_STABILIZATION_DELAY)
                 activeRelayIndex sensorPin (sensorValue == HIGH)])
  else some (s, [])

/-- The function `loop()`: one tick of the scheduler. -/
def loop (cfg : Config) (s : State) (t : Tick) : Option (State × List Event) :=
  let currentTime := millis t
  match manageActive cfg s currentTime with
  | none => none
  | some (s1, out1) =>
    match startCycle cfg s1 t currentTime with
    | none => none
    | some (s2, out2) => some (s2, out1 ++ out2)

/-- Successive calls of `loop()`, one per tick, with the lines they print. -/
def run (cfg : Config) (s : State) : List Tick → Option (State × List Event)
  | [] => some (s, [])
  | t :: rest =>
    match loop cfg s t with
    | none => none
    | some (s1, out1) =>
      match run cfg s1 rest with
      | none => none
      | some (s2, out2) => some (s2, out1 ++ out2)

/-- The states the sketch can be in: after `setup()`, and after any call of
`loop()` made in such a state. -/
inductive Reachable (cfg : Config) : State → Prop
  | init (pins0 : Nat → Bool) (s : State) : setup cfg pins0 = some s → Reachable cfg s
  | step (s : State) (t : Tick) (s1 : State) (out : List Event) :
      Reachable cfg s → loop cfg s t = some (s1, out) → Reachable cfg s1

/-- Whether relay `i` is at its energized level. -/
def relayEnergized (cfg : Config) (s : State) (i : Nat) : Bool :=
  match cfg.relayControlPins[i]? with
  | none => false
  | some pin => s.pins pin == cfg.IS_RELAY_ACTIVE_HIGH

/-- The state left by the relay-off branch of `loop()`. -/
def offState (cfg : Config) (s : State) (pin : Nat) : State :=
  { s with pins := writeRelayOff cfg s.pins pin
           isRelayCurrentlyActive := false
           activeRelayIndex := -1 }

/-- The state left by the cycle-start branch of `loop()`. -/
def startState (cfg : Config) (s : State) (currentTime pin : Nat) : State :=
  { currentSensorIndex :=
      if s.currentSensorIndex + 1 ≥ (cfg.NUM_SENSORS : Int) then 0 else s.currentSensorIndex + 1
    lastCycleStartTime := currentTime
    currentRelayOffTime := uadd currentTime cfg.SENSOR_POWER_ON_DURATION
    isRelayCurrentlyActive := true
    activeRelayIndex := s.currentSensorIndex
    pins := writeRelayOn cfg s.pins pin }

/-- The three lines printed by the cycle-start branch of `loop()`. -/
def startEvents (cfg : Config) (s : State) (t : Tick) (currentTime sensorPin : Nat) : List Event :=
  [Event.cycleStart currentTime s.currentSensorIndex,
   Event.relayOn currentTime s.currentSensorIndex,
   Event.reading (uadd currentTime cfg.SENSOR_STABILIZATION_DELAY)
     s.currentSensorIndex sensorPin (t.digitalRead sensorPin == HIGH)]

/-- What holds in every reachable state: the index of the next sensor is in
range, and the relay outputs agree with the bookkeeping of the active relay. -/
structure Inv (cfg : Config) (s : State) : Prop where
  idx_lo : 0 ≤ s.currentSensorIndex
  idx_hi : s.currentSensorIndex < cfg.NUM_SENSORS
  idle : s.isRelayCurrentlyActive = false →
    s.activeRelayIndex = -1 ∧ ∀ i : Nat, relayEnergized cfg s i = false
  busy : s.isRelayCurrentlyActive = true →
    0 ≤ s.activeRelayIndex ∧ s.activeRelayIndex < cfg.NUM_SENSORS ∧
      ∀ i : Nat, (relayEnergized cfg s i = true ↔ (i : Int) = s.activeRelayIndex)

/-- The sketch's constants with the analog pins numbered as on an Arduino Mega
(`A0 = 54`, ..., `A5 = 59`). -/
def megaConfig : Config := sourceConfig 54 55 56 57 58 59

/-- Output latches all `LOW`, as after a reset. -/
def resetPins : Nat → Bool := fun _ => false

/-- A tick at time `now` during which every sensor input reads `level`. -/
def tickAt (now : Nat) (level : Bool) : Tick := { now := now, digitalRead := fun _ => level }

/-- The state after `setup()`, when it succeeds. -/
def initState (cfg : Config) (pins0 : Nat → Bool) : State :=
  { currentSensorIndex := 0
    lastCycleStartTime := 0
    currentRelayOffTime := 0
    isRelayCurrentlyActive := false
    activeRelayIndex := -1
    pins := cfg.relayControlPins.foldl (writeRelayOff cfg) pins0 }

/-- The state of `megaConfig` after `setup()`. -/
def megaInit : State := initState megaConfig resetPins

/-- The state of `megaConfig` after `setup()` and a tick at 5000 ms, which
starts the cycle of sensor 0. -/
def megaBusy : State := startState megaConfig megaInit 5000 54

/-- Whether a log line is a "Turning ON relay" line. -/
def Event.isRelayOn : Event → Bool
  | Event.relayOn _ _ => true
  | _ => false

/-- Whether a log line is a "Turning OFF relay" line. -/
def Event.isRelayOff : Event → Bool
  | Event.relayOff _ _ => true
  | _ => false

/-- Whether the lines printed by a tick show that it started a cycle. -/
def startsCycle (out : List Event) : Bool := out.any Event.isRelayOn

/-- The slots named by the "Turning ON relay" lines of a log, in order. -/
def relayOnSlots (out : List Event) : List Int :=
  out.filterMap fun e =>
    match e with
    | Event.relayOn _ i => some i
    | _ => none

/-- The slots named by the sensor-value lines of a log, in order. -/
def readingSlots (out : List Event) : List Int :=
  out.filterMap fun e =>
    match e with
    | Event.reading _ i _ _ => some i
    | _ => none

/-- The slots `c, c+1, ..., c+k-1` taken modulo `n`. -/
def slotsFrom (n : Nat) (c : Int) (k : Nat) : List Int :=
  (List.range k).map fun (j : Nat) => (c + (j : Int)) % (n : Int)

/-- Between two cycle starts: the bookkeeping left by the cycle started at `T`,
seen at a moment when the latest tick so far had timestamp `m`. -/
structure Since (cfg : Config) (T : Nat) (s : State) (m : Nat) : Prop where
  last : s.lastCycleStartTime = T
  busy : s.isRelayCurrentlyActive = true →
    s.activeRelayIndex ≠ -1 ∧ s.currentRelayOffTime = T + cfg.SENSOR_POWER_ON_DURATION
  idle : s.isRelayCurrentlyActive = false → T + cfg.SENSOR_POWER_ON_DURATION ≤ m

/-- The configuration of the spec's scenarios: three slots, the first three
entries of each pin table of the sketch, power-on duration 1000,
stabilization delay 100, and the given cycle interval. -/
def scenarioConfig (A0 A1 A2 : Nat) (interval : Nat) : Config where
  NUM_SENSORS := 3
  NUM_RELAYS := 3
  sensorSignalPins := [2, 3, 4]
  relayControlPins := [A0, A1, A2]
  SENSOR_POWER_ON_DURATION := 1000
  SENSOR_READ_CYCLE_INTERVAL := interval
  SENSOR_STABILIZATION_DELAY := 100
  IS_RELAY_ACTIVE_HIGH := true

/-- A tick at time `now` in an environment `env` giving, for each time, the
level on each input pin. -/
def envTick (env : Nat → Nat → Bool) (now : Nat) : Tick :=
  { now := now, digitalRead := env now }

/-- The lines printed by each tick of a run, tick by tick. -/
def runLog (cfg : Config) (s : State) : List Tick → Option (List (List Event))
  | [] => some []
  | t :: rest =>
    match loop cfg s t with
    | none => none
    | some (s1, out) =>
      match runLog cfg s1 rest with
      | none => none
      | some outs => some (out :: outs)

/-- The scenario with interval 5000 on Arduino Mega pins, after `setup()`. -/
def scenarioInit : State := initState (scenarioConfig 54 55 56 5000) resetPins

/-- The scenario with interval 500, shorter than the power-on duration 1000, on
Arduino Mega pins. -/
def fastConfig : Config := scenarioConfig 54 55 56 500

/-- The state of `fastConfig` after `setup()`. -/
def fastInit : State := initState fastConfig resetPins

/-- The state of `fastConfig` after `setup()` and a tick at 500 ms, which starts
the cycle of sensor 0. -/
def fastBusy : State := startState fastConfig fastInit 500 54

/-- The state of `fastConfig` one cycle later: the tick at 1500 ms has switched
relay 0 off and started the cycle of sensor 1. -/
def fastBusy2 : State := startState fastConfig (offState fastConfig fastBusy 54) 1500 55

/-- A log line with the level of a sensor-value line forgotten. -/
def Event.forgetLevel : Event → Event
  | Event.reading t i pin _ => Event.reading t i pin false
  | e => e

/-- The coupling of the active relay with the rest of the bookkeeping: while a
relay is active, the next slot is the successor of the active one and the
relay-off time is the start of the cycle plus the power-on duration. -/
structure Coupled (cfg : Config) (s : State) : Prop where
  next : s.isRelayCurrentlyActive = true →
    s.currentSensorIndex = (s.activeRelayIndex + 1) % (cfg.NUM_SENSORS : Int)
  deadline : s.isRelayCurrentlyActive = true →
    s.currentRelayOffTime = uadd s.lastCycleStartTime cfg.SENSOR_POWER_ON_DURATION

/-- Whether a log line is a sensor-value line. -/
def Event.isReading : Event → Bool
  | Event.reading _ _ _ _ => true
  | _ => false

/-- The relay lines of a log, in order: `(true, i)` for "Turning ON relay for
sensor i", `(false, i)` for "Turning OFF relay for sensor i". -/
def relayTrace (out : List Event) : List (Bool × Int) :=
  out.filterMap fun e =>
    match e with
    | Event.relayOn _ i => some (true, i)
    | Event.relayOff _ i => some (false, i)
    | _ => none

/-- The alternating sequence of `k` relay lines over `n` slots.  With no relay
on (`false`) and `c` the next slot: relay-on of `c`, then the rest with `c` on.
With relay `c` on (`true`): relay-off of the same slot `c`, then the rest with
the successor of `c` modulo `n` as next slot. -/
def alternation (n : Nat) : Bool → Int → Nat → List (Bool × Int)
  | _, _, 0 => []
  | false, c, k + 1 => (true, c) :: alternation n true c k
  | true, c, k + 1 => (false, c) :: alternation n false ((c + 1) % (n : Int)) k

/-- The slot the alternation is at in a state: the active slot while a relay
is on, the next slot to service otherwise. -/
def phaseSlot (s : State) : Int :=
  if s.isRelayCurrentlyActive then s.activeRelayIndex else s.currentSensorIndex

/-- The same configuration wired with the opposite relay polarity. -/
def flipPolarity (cfg : Config) : Config :=
  { cfg with IS_RELAY_ACTIVE_HIGH := !cfg.IS_RELAY_ACTIVE_HIGH }

/-- Two states of two runs with opposite polarities that agree on the five
scheduler variables and have every relay control pin at inverted levels. -/
structure Mirror (cfg : Config) (s s2 : State) : Prop where
  index : s2.currentSensorIndex = s.currentSensorIndex
  last : s2.lastCycleStartTime = s.lastCycleStartTime
  deadline : s2.currentRelayOffTime = s.currentRelayOffTime
  active : s2.isRelayCurrentlyActive = s.isRelayCurrentlyActive
  relay : s2.activeRelayIndex = s.activeRelayIndex
  pins : ∀ pin ∈ cfg.relayControlPins, s2.pins pin = !s.pins pin

/-- The state of `megaConfig` after `setup()` and a tick at `2^32 - 500`, which
starts the cycle of sensor 0 with a relay-off deadline past `2^32`. -/
def wrapBusy : State := startState megaConfig megaInit 4294966796 54

/-- The state of `fastConfig` after `setup()` and a tick at `2^32 - 700`, which
starts the cycle of sensor 0 with a relay-off deadline past `2^32`. -/
def fastWrapBusy : State := startState fastConfig fastInit 4294966596 54

/-- The state of `fastConfig` after the further tick at `2^32 - 200`, which has
switched relay 0 off and started the cycle of sensor 1. -/
def fastWrapBusy2 : State :=
  startState fastConfig (offState fastConfig fastWrapBusy 54) 4294967096 55

/-! ## Basic facts about the embedding -/

theorem writeRelayOff_eq (cfg : Config) (pins : Nat → Bool) (pin : Nat) :
    writeRelayOff cfg pins pin = Function.update pins pin (!cfg.IS_RELAY_ACTIVE_HIGH) := by
  unfold writeRelayOff digitalWrite LOW HIGH
  cases cfg.IS_RELAY_ACTIVE_HIGH <;> rfl

theorem writeRelayOn_eq (cfg : Config) (pins : Nat → Bool) (pin : Nat) :
    writeRelayOn cfg pins pin = Function.update pins pin cfg.IS_RELAY_ACTIVE_HIGH := by
  unfold writeRelayOn digitalWrite LOW HIGH
  cases cfg.IS_RELAY_ACTIVE_HIGH <;> rfl

theorem arrayGet_eq_some {xs : List Nat} {i : Int} {p : Nat} :
    arrayGet xs i = some p ↔ 0 ≤ i ∧ xs[i.toNat]? = some p := by
  unfold arrayGet
  split <;> simp [*]

theorem arrayGet_natCast (xs : List Nat) (i : Nat) : arrayGet xs (i : Int) = xs[i]? := by
  simp [arrayGet]

theorem arrayGet_isSome (xs : List Nat) {i : Int} (h0 : 0 ≤ i) (h1 : i < xs.length) :
    ∃ p, arrayGet xs i = some p := by
  have h : i.toNat < xs.length := by omega
  exact ⟨xs[i.toNat], by simp [arrayGet, h0, List.getElem?_eq_getElem h]⟩

theorem arrayGet_lt {xs : List Nat} {i : Int} {p : Nat} (h : arrayGet xs i = some p) :
    0 ≤ i ∧ i < xs.length := by
  rw [arrayGet_eq_some] at h
  obtain ⟨h0, h1⟩ := h
  have := (List.getElem?_eq_some_iff.mp h1).1
  omega

theorem manageActive_cases {cfg : Config} {s sm : State} {now : Nat} {o : List Event}
    (h : manageActive cfg s now = some (sm, o)) :
    (¬ (s.isRelayCurrentlyActive = true ∧ s.activeRelayIndex ≠ -1 ∧ s.currentRelayOffTime ≤ now)
        ∧ sm = s ∧ o = []) ∨
    (s.isRelayCurrentlyActive = true ∧ s.activeRelayIndex ≠ -1 ∧ s.currentRelayOffTime ≤ now ∧
      ∃ pin, arrayGet cfg.relayControlPins s.activeRelayIndex = some pin ∧
        sm = { s with pins := writeRelayOff cfg s.pins pin
                      isRelayCurrentlyActive := false
                      activeRelayIndex := -1 } ∧
        o = [Event.relayOff now s.activeRelayIndex]) := by
  unfold manageActive at h
  split at h
  · rename_i hc
    simp only [Bool.and_eq_true, bne_iff_ne, ne_eq] at hc
    split at h
    · rename_i hge
      split at h
      · exact absurd h (by simp)
      · rename_i pin hp
        right
        simp only [Option.some.injEq, Prod.mk.injEq] at h
        exact ⟨hc.1, hc.2, hge, pin, hp, h.1.symm, h.2.symm⟩
    · rename_i hge
      left
      simp only [Option.some.injEq, Prod.mk.injEq] at h
      exact ⟨fun hh => hge hh.2.2, h.1.symm, h.2.symm⟩
  · rename_i hc
    simp only [Bool.and_eq_true, bne_iff_ne, ne_eq] at hc
    left
    simp only [Option.some.injEq, Prod.mk.injEq] at h
    exact ⟨fun hh => hc ⟨hh.1, hh.2.1⟩, h.1.symm, h.2.symm⟩

theorem manageActive_idle {cfg : Config} {s : State} {now : Nat}
    (h : ¬ (s.isRelayCurrentlyActive = true ∧ s.activeRelayIndex ≠ -1 ∧
      s.currentRelayOffTime ≤ now)) :
    manageActive cfg s now = some (s, []) := by
  unfold manageActive
  split
  · rename_i hc
    simp only [Bool.and_eq_true, bne_iff_ne, ne_eq] at hc
    split
    · rename_i hge
      exact absurd ⟨hc.1, hc.2, hge⟩ h
    · rfl
  · rfl

theorem manageActive_off {cfg : Config} {s : State} {n pin : Nat}
    (ha : s.isRelayCurrentlyActive = true) (hi : s.activeRelayIndex ≠ -1)
    (hd : s.currentRelayOffTime ≤ n)
    (hp : arrayGet cfg.relayControlPins s.activeRelayIndex = some pin) :
    manageActive cfg s n
      = some (offState cfg s pin, [Event.relayOff n s.activeRelayIndex]) := by
  unfold manageActive offState
  simp [ha, hi, hd, hp]

theorem startCycle_idle {cfg : Config} {s : State} {t : Tick} {now : Nat}
    (h : ¬ (s.isRelayCurrentlyActive = false ∧
      cfg.SENSOR_READ_CYCLE_INTERVAL ≤ usub now s.lastCycleStartTime)) :
    startCycle cfg s t now = some (s, []) := by
  unfold startCycle
  split
  · rename_i hc
    simp only [Bool.and_eq_true, Bool.not_eq_true', decide_eq_true_eq, ge_iff_le] at hc
    exact absurd hc h
  · rfl

theorem startCycle_start {cfg : Config} {s : State} {t : Tick} {now pin sensorPin : Nat}
    (ha : s.isRelayCurrentlyActive = false)
    (hd : cfg.SENSOR_READ_CYCLE_INTERVAL ≤ usub now s.lastCycleStartTime)
    (hp : arrayGet cfg.relayControlPins s.currentSensorIndex = some pin)
    (hq : arrayGet cfg.sensorSignalPins s.currentSensorIndex = some sensorPin) :
    startCycle cfg s t now
      = some (startState cfg s now pin, startEvents cfg s t now sensorPin) := by
  unfold startCycle startState startEvents
  simp [ha, hd, hp, hq]

theorem startCycle_cases {cfg : Config} {s s2 : State} {t : Tick} {now : Nat} {o : List Event}
    (h : startCycle cfg s t now = some (s2, o)) :
    (¬ (s.isRelayCurrentlyActive = false ∧
        cfg.SENSOR_READ_CYCLE_INTERVAL ≤ usub now s.lastCycleStartTime) ∧ s2 = s ∧ o = []) ∨
    (s.isRelayCurrentlyActive = false ∧
      cfg.SENSOR_READ_CYCLE_INTERVAL ≤ usub now s.lastCycleStartTime ∧
      ∃ pin sensorPin, arrayGet cfg.relayControlPins s.currentSensorIndex = some pin ∧
        arrayGet cfg.sensorSignalPins s.currentSensorIndex = some sensorPin ∧
        s2 = startState cfg s now pin ∧ o = startEvents cfg s t now sensorPin) := by
  by_cases hc : s.isRelayCurrentlyActive = false ∧
      cfg.SENSOR_READ_CYCLE_INTERVAL ≤ usub now s.lastCycleStartTime
  · right
    cases hp : arrayGet cfg.relayControlPins s.currentSensorIndex with
    | none => simp [startCycle, hc.1, hc.2, hp] at h
    | some pin =>
      cases hq : arrayGet cfg.sensorSignalPins s.currentSensorIndex with
      | none => simp [startCycle, hc.1, hc.2, hp, hq] at h
      | some sensorPin =>
        rw [startCycle_start hc.1 hc.2 hp hq] at h
        simp only [Option.some.injEq, Prod.mk.injEq] at h
        exact ⟨hc.1, hc.2, pin, sensorPin, rfl, rfl, h.1.symm, h.2.symm⟩
  · left
    rw [startCycle_idle hc] at h
    simp only [Option.some.injEq, Prod.mk.injEq] at h
    exact ⟨hc, h.1.symm, h.2.symm⟩

theorem loop_eq_some {cfg : Config} {s s2 : State} {t : Tick} {out : List Event} :
    loop cfg s t = some (s2, out) ↔
      ∃ sm o1 o2, manageActive cfg s (millis t) = some (sm, o1) ∧
        startCycle cfg sm t (millis t) = some (s2, o2) ∧ out = o1 ++ o2 := by
  unfold loop
  constructor
  · intro h
    cases hm : manageActive cfg s (millis t) with
    | none => simp [hm] at h
    | some r =>
      obtain ⟨sm, o1⟩ := r
      cases hs : startCycle cfg sm t (millis t) with
      | none => simp [hm, hs] at h
      | some r2 =>
        obtain ⟨s3, o2⟩ := r2
        simp [hm, hs] at h
        exact ⟨sm, o1, o2, rfl, by rw [hs, h.1], h.2.symm⟩
  · rintro ⟨sm, o1, o2, hm, hs, rfl⟩
    simp [hm, hs]

/-! ## The invariant of the reachable states -/

theorem nodup_getElem?_inj {xs : List Nat} (hn : xs.Nodup) {i j p : Nat}
    (hi : xs[i]? = some p) (hj : xs[j]? = some p) : i = j := by
  obtain ⟨hi1, hi2⟩ := List.getElem?_eq_some_iff.mp hi
  obtain ⟨hj1, hj2⟩ := List.getElem?_eq_some_iff.mp hj
  exact (List.Nodup.getElem_inj_iff hn).mp (hi2.trans hj2.symm)

theorem relayEnergized_update_same {cfg : Config} {s s2 : State} {i pin : Nat} {v : Bool}
    (hp : cfg.relayControlPins[i]? = some pin) (h2 : s2.pins = Function.update s.pins pin v) :
    relayEnergized cfg s2 i = (v == cfg.IS_RELAY_ACTIVE_HIGH) := by
  simp [relayEnergized, hp, h2]

theorem relayEnergized_update_other {cfg : Config} (hn : cfg.relayControlPins.Nodup)
    {s s2 : State} {i j pin : Nat} {v : Bool}
    (hp : cfg.relayControlPins[j]? = some pin) (hij : i ≠ j)
    (h2 : s2.pins = Function.update s.pins pin v) :
    relayEnergized cfg s2 i = relayEnergized cfg s i := by
  unfold relayEnergized
  cases hq : cfg.relayControlPins[i]? with
  | none => rfl
  | some q =>
    have hne : q ≠ pin := fun h => hij (nodup_getElem?_inj hn (h ▸ hq) hp)
    simp [h2, Function.update_noteq hne]

theorem setupSensors_ok (cfg : Config) (is : List Nat)
    (h : ∀ i ∈ is, i < cfg.sensorSignalPins.length) : setupSensors cfg is = some () := by
  induction is with
  | nil => rfl
  | cons i rest ih =>
    have hi : i < cfg.sensorSignalPins.length := h i (List.mem_cons_self _ _)
    simp only [setupSensors, arrayGet_natCast, List.getElem?_eq_getElem hi]
    exact ih (fun j hj => h j (List.mem_cons_of_mem _ hj))

theorem setupRelays_ok (cfg : Config) (is : List Nat)
    (h : ∀ i ∈ is, i < cfg.relayControlPins.length) (pins : Nat → Bool) :
    ∃ pins2, setupRelays cfg is pins = some pins2 ∧
      (∀ q, pins q = (!cfg.IS_RELAY_ACTIVE_HIGH) → pins2 q = (!cfg.IS_RELAY_ACTIVE_HIGH)) ∧
      (∀ i ∈ is, ∀ p, cfg.relayControlPins[i]? = some p →
        pins2 p = (!cfg.IS_RELAY_ACTIVE_HIGH)) := by
  induction is generalizing pins with
  | nil => exact ⟨pins, rfl, fun _ hq => hq, fun i hi => absurd hi (List.not_mem_nil _)⟩
  | cons i rest ih =>
    have hi : i < cfg.relayControlPins.length := h i (List.mem_cons_self _ _)
    obtain ⟨pins2, h1, h2, h3⟩ :=
      ih (fun j hj => h j (List.mem_cons_of_mem _ hj))
        (writeRelayOff cfg pins cfg.relayControlPins[i])
    refine ⟨pins2, ?_, ?_, ?_⟩
    · simp only [setupRelays, arrayGet_natCast, List.getElem?_eq_getElem hi]
      exact h1
    · intro q hq
      apply h2
      rw [writeRelayOff_eq]
      by_cases hqp : q = cfg.relayControlPins[i]
      · subst hqp; simp
      · simp [Function.update_noteq hqp, hq]
    · intro j hj p hp
      rcases List.mem_cons.mp hj with rfl | hj
      · apply h2
        rw [List.getElem?_eq_getElem hi] at hp
        simp only [Option.some.injEq] at hp
        rw [writeRelayOff_eq, hp]
        simp
      · exact h3 j hj p hp

theorem setup_ok {cfg : Config} (hwf : cfg.WF) (pins0 : Nat → Bool) :
    ∃ s, setup cfg pins0 = some s ∧ s.currentSensorIndex = 0 ∧ s.lastCycleStartTime = 0 ∧
      s.currentRelayOffTime = 0 ∧ s.isRelayCurrentlyActive = false ∧ s.activeRelayIndex = -1 ∧
      ∀ i : Nat, relayEnergized cfg s i = false := by
  have hs : setupSensors cfg (List.range cfg.NUM_SENSORS) = some () :=
    setupSensors_ok cfg _ (fun i hi => by rw [hwf.sensors_len]; exact List.mem_range.mp hi)
  obtain ⟨pins, hp1, -, hp3⟩ := setupRelays_ok cfg (List.range cfg.NUM_RELAYS)
    (fun i hi => by rw [hwf.relays_len]; exact List.mem_range.mp hi) pins0
  refine ⟨{ currentSensorIndex := 0, lastCycleStartTime := 0, currentRelayOffTime := 0,
             isRelayCurrentlyActive := false, activeRelayIndex := -1, pins := pins },
    by simp only [setup, hs, hp1], rfl, rfl, rfl, rfl, rfl, ?_⟩
  intro i
  unfold relayEnergized
  cases hq : cfg.relayControlPins[i]? with
  | none => rfl
  | some q =>
    have hi : i < cfg.NUM_RELAYS := by
      rw [← hwf.relays_len]; exact (List.getElem?_eq_some_iff.mp hq).1
    have := hp3 i (List.mem_range.mpr hi) q hq
    simp only [this]
    cases cfg.IS_RELAY_ACTIVE_HIGH <;> rfl

theorem setup_inv {cfg : Config} (hwf : cfg.WF) {pins0 : Nat → Bool} {s : State}
    (h : setup cfg pins0 = some s) : Inv cfg s := by
  obtain ⟨s2, h2, hc, -, -, ha, hi, he⟩ := setup_ok hwf pins0
  rw [h] at h2
  simp only [Option.some.injEq] at h2
  subst h2
  refine ⟨by omega, ?_, fun _ => ⟨hi, he⟩, fun hb => ?_⟩
  · have := hwf.sensors_pos
    omega
  · rw [ha] at hb; exact absurd hb (by simp)

theorem offState_inv {cfg : Config} (hwf : cfg.WF) {s : State} (hinv : Inv cfg s)
    (ha : s.isRelayCurrentlyActive = true) {pin : Nat}
    (hp : arrayGet cfg.relayControlPins s.activeRelayIndex = some pin) :
    Inv cfg (offState cfg s pin) := by
  obtain ⟨h0, hget⟩ := arrayGet_eq_some.mp hp
  obtain ⟨-, -, hb⟩ := hinv.busy ha
  refine ⟨hinv.idx_lo, hinv.idx_hi, fun _ => ⟨rfl, fun i => ?_⟩, fun h => absurd h (by simp [offState])⟩
  by_cases hi : i = s.activeRelayIndex.toNat
  · subst hi
    rw [relayEnergized_update_same hget (writeRelayOff_eq cfg s.pins pin)]
    cases cfg.IS_RELAY_ACTIVE_HIGH <;> rfl
  · rw [relayEnergized_update_other hwf.relays_nodup hget hi (writeRelayOff_eq cfg s.pins pin)]
    have hne : ¬ ((i : Int) = s.activeRelayIndex) := by omega
    cases he : relayEnergized cfg s i with
    | false => rfl
    | true => exact absurd ((hb i).mp he) hne

theorem startState_inv {cfg : Config} (hwf : cfg.WF) {s : State} (hinv : Inv cfg s)
    (ha : s.isRelayCurrentlyActive = false) {pin : Nat} (now : Nat)
    (hp : arrayGet cfg.relayControlPins s.currentSensorIndex = some pin) :
    Inv cfg (startState cfg s now pin) := by
  obtain ⟨h0, hget⟩ := arrayGet_eq_some.mp hp
  obtain ⟨-, hidle⟩ := hinv.idle ha
  have hlo := hinv.idx_lo
  have hhi := hinv.idx_hi
  have hpos := hwf.sensors_pos
  refine ⟨?_, ?_, fun h => absurd h (by simp [startState]), fun _ => ⟨hlo, hhi, fun i => ?_⟩⟩
  · simp only [startState]; split <;> omega
  · simp only [startState]; split <;> omega
  · by_cases hi : i = s.currentSensorIndex.toNat
    · subst hi
      rw [relayEnergized_update_same hget (writeRelayOn_eq cfg s.pins pin)]
      simp only [startState, beq_self_eq_true, true_iff]
      omega
    · rw [relayEnergized_update_other hwf.relays_nodup hget hi (writeRelayOn_eq cfg s.pins pin),
        hidle i]
      simp only [startState, Bool.false_eq_true, false_iff]
      omega

theorem manageActive_inv {cfg : Config} (hwf : cfg.WF) {s sm : State} {now : Nat}
    {o : List Event} (hinv : Inv cfg s) (h : manageActive cfg s now = some (sm, o)) :
    Inv cfg sm := by
  rcases manageActive_cases h with ⟨-, rfl, -⟩ | ⟨ha, -, -, pin, hp, rfl, -⟩
  · exact hinv
  · exact offState_inv hwf hinv ha hp

theorem startCycle_inv {cfg : Config} (hwf : cfg.WF) {s s2 : State} {t : Tick} {now : Nat}
    {o : List Event} (hinv : Inv cfg s) (h : startCycle cfg s t now = some (s2, o)) :
    Inv cfg s2 := by
  rcases startCycle_cases h with ⟨-, rfl, -⟩ | ⟨ha, -, pin, sp, hp, -, rfl, -⟩
  · exact hinv
  · exact startState_inv hwf hinv ha now hp

theorem loop_inv {cfg : Config} (hwf : cfg.WF) {s s2 : State} {t : Tick} {out : List Event}
    (hinv : Inv cfg s) (h : loop cfg s t = some (s2, out)) : Inv cfg s2 := by
  obtain ⟨sm, o1, o2, hm, hs, -⟩ := loop_eq_some.mp h
  exact startCycle_inv hwf (manageActive_inv hwf hinv hm) hs

theorem reachable_inv {cfg : Config} (hwf : cfg.WF) {s : State} (h : Reachable cfg s) :
    Inv cfg s := by
  induction h with
  | init pins0 s hs => exact setup_inv hwf hs
  | step s t s1 out _ hl ih => exact loop_inv hwf ih hl

theorem manageActive_total {cfg : Config} (hwf : cfg.WF) {s : State} (hinv : Inv cfg s)
    (now : Nat) : ∃ sm o, manageActive cfg s now = some (sm, o) := by
  by_cases hc : s.isRelayCurrentlyActive = true ∧ s.activeRelayIndex ≠ -1 ∧
      s.currentRelayOffTime ≤ now
  · obtain ⟨h0, h1, -⟩ := hinv.busy hc.1
    obtain ⟨pin, hp⟩ := arrayGet_isSome cfg.relayControlPins h0
      (by rw [hwf.relays_len]; have := hwf.sensors_le; omega)
    exact ⟨_, _, manageActive_off hc.1 hc.2.1 hc.2.2 hp⟩
  · exact ⟨_, _, manageActive_idle hc⟩

theorem startCycle_total {cfg : Config} (hwf : cfg.WF) {s : State} (hinv : Inv cfg s)
    (t : Tick) (now : Nat) : ∃ s2 o, startCycle cfg s t now = some (s2, o) := by
  by_cases hc : s.isRelayCurrentlyActive = false ∧
      cfg.SENSOR_READ_CYCLE_INTERVAL ≤ usub now s.lastCycleStartTime
  · obtain ⟨pin, hp⟩ := arrayGet_isSome cfg.relayControlPins hinv.idx_lo
      (by rw [hwf.relays_len]; have := hwf.sensors_le; have := hinv.idx_hi; omega)
    obtain ⟨sp, hq⟩ := arrayGet_isSome cfg.sensorSignalPins hinv.idx_lo
      (by rw [hwf.sensors_len]; exact hinv.idx_hi)
    exact ⟨_, _, startCycle_start hc.1 hc.2 hp hq⟩
  · exact ⟨_, _, startCycle_idle hc⟩

theorem loop_total {cfg : Config} (hwf : cfg.WF) {s : State} (hinv : Inv cfg s) (t : Tick) :
    ∃ s2 out, loop cfg s t = some (s2, out) := by
  obtain ⟨sm, o1, hm⟩ := manageActive_total hwf hinv (millis t)
  obtain ⟨s2, o2, hs⟩ := startCycle_total hwf (manageActive_inv hwf hinv hm) t (millis t)
  exact ⟨s2, o1 ++ o2, loop_eq_some.mpr ⟨sm, o1, o2, hm, hs, rfl⟩⟩

theorem run_total {cfg : Config} (hwf : cfg.WF) (ts : List Tick) {s : State}
    (hinv : Inv cfg s) : ∃ s2 out, run cfg s ts = some (s2, out) ∧ Inv cfg s2 := by
  induction ts generalizing s with
  | nil => exact ⟨s, [], rfl, hinv⟩
  | cons t rest ih =>
    obtain ⟨s1, o1, h1⟩ := loop_total hwf hinv t
    obtain ⟨s2, o2, h2, hi2⟩ := ih (loop_inv hwf hinv h1)
    exact ⟨s2, o1 ++ o2, by simp only [run, h1, h2], hi2⟩

/-! ## Single-active invariant and index safety -/

theorem megaConfig_wf : megaConfig.WF :=
  ⟨rfl, rfl, by decide, by decide, by decide⟩

theorem megaInit_setup : setup megaConfig resetPins = some megaInit := rfl

theorem megaInit_reachable : Reachable megaConfig megaInit :=
  Reachable.init resetPins megaInit megaInit_setup

theorem megaBusy_loop :
    loop megaConfig megaInit (tickAt 5000 true)
      = some (megaBusy, startEvents megaConfig megaInit (tickAt 5000 true) 5000 2) := rfl

theorem megaBusy_reachable : Reachable megaConfig megaBusy :=
  Reachable.step megaInit (tickAt 5000 true) megaBusy _ megaInit_reachable megaBusy_loop

/-- C1 (single-active invariant): in every state reachable from the state left
by `setup()` through calls of `loop()`, whatever the timestamps and the sensor
levels, no relay output is energized when `isRelayCurrentlyActive` is false,
exactly the output of relay `activeRelayIndex` is energized when it is true,
so at most one relay output is energized, and `isRelayCurrentlyActive` is true
if and only if `activeRelayIndex != -1`. -/
theorem single_active_invariant (cfg : Config) (hwf : cfg.WF) (s : State)
    (hr : Reachable cfg s) :
    (s.isRelayCurrentlyActive = false → ∀ i : Nat, relayEnergized cfg s i = false) ∧
    (s.isRelayCurrentlyActive = true → ∃ a : Nat, a < cfg.NUM_RELAYS ∧ s.activeRelayIndex = a ∧
        ∀ i : Nat, (relayEnergized cfg s i = true ↔ i = a)) ∧
    (∀ i j : Nat, relayEnergized cfg s i = true → relayEnergized cfg s j = true → i = j) ∧
    (s.isRelayCurrentlyActive = true ↔ s.activeRelayIndex ≠ -1) := by
  have hinv := reachable_inv hwf hr
  have hbusy : s.isRelayCurrentlyActive = true → ∃ a : Nat, a < cfg.NUM_RELAYS ∧
      s.activeRelayIndex = a ∧ ∀ i : Nat, (relayEnergized cfg s i = true ↔ i = a) := by
    intro ha
    obtain ⟨h0, h1, h2⟩ := hinv.busy ha
    have hle := hwf.sensors_le
    refine ⟨s.activeRelayIndex.toNat, by omega, by omega, fun i => ?_⟩
    rw [h2 i]
    omega
  refine ⟨fun ha => (hinv.idle ha).2, hbusy, ?_, ?_⟩
  · intro i j hi hj
    cases ha : s.isRelayCurrentlyActive with
    | false => rw [(hinv.idle ha).2 i] at hi; exact absurd hi (by simp)
    | true =>
      obtain ⟨a, -, -, h⟩ := hbusy ha
      rw [(h i).mp hi, (h j).mp hj]
  · constructor
    · intro ha
      have := (hinv.busy ha).1
      omega
    · intro hne
      cases ha : s.isRelayCurrentlyActive with
      | false => exact absurd (hinv.idle ha).1 hne
      | true => rfl

theorem single_active_invariant_witness :
    megaConfig.WF ∧ Reachable megaConfig megaBusy ∧
    (∃ a : Nat, a < megaConfig.NUM_RELAYS ∧ megaBusy.activeRelayIndex = a ∧
        ∀ i : Nat, (relayEnergized megaConfig megaBusy i = true ↔ i = a)) ∧
    (∀ i j : Nat, relayEnergized megaConfig megaBusy i = true →
        relayEnergized megaConfig megaBusy j = true → i = j) :=
  have h := single_active_invariant megaConfig megaConfig_wf megaBusy megaBusy_reachable
  ⟨megaConfig_wf, megaBusy_reachable, h.2.1 rfl, h.2.2.1⟩

/-- C10 (index safety): in every reachable state `0 <= currentSensorIndex <
NUM_SENSORS` and `activeRelayIndex` is `-1` or lies in `[0, NUM_RELAYS)`; hence
no array read of `loop()` is out of bounds: the relay-off branch, when taken,
reads `relayControlPins[activeRelayIndex]` inside the array, the cycle-start
branch, when taken, reads `relayControlPins` and `sensorSignalPins` inside
their arrays, and `loop()` returns a state for every tick. -/
theorem index_safety (cfg : Config) (hwf : cfg.WF) (s : State) (hr : Reachable cfg s) :
    (0 ≤ s.currentSensorIndex ∧ s.currentSensorIndex < cfg.NUM_SENSORS) ∧
    (s.activeRelayIndex = -1 ∨ (0 ≤ s.activeRelayIndex ∧ s.activeRelayIndex < cfg.NUM_RELAYS)) ∧
    (s.isRelayCurrentlyActive = true → s.activeRelayIndex ≠ -1 →
      ∃ pin, arrayGet cfg.relayControlPins s.activeRelayIndex = some pin) ∧
    (∃ pin sensorPin, arrayGet cfg.relayControlPins s.currentSensorIndex = some pin ∧
      arrayGet cfg.sensorSignalPins s.currentSensorIndex = some sensorPin) ∧
    (∀ t : Tick, ∃ s2 out, loop cfg s t = some (s2, out)) := by
  have hinv := reachable_inv hwf hr
  have hle := hwf.sensors_le
  have hlo := hinv.idx_lo
  have hhi := hinv.idx_hi
  refine ⟨⟨hlo, hhi⟩, ?_, ?_, ?_, fun t => loop_total hwf hinv t⟩
  · cases ha : s.isRelayCurrentlyActive with
    | false => exact Or.inl (hinv.idle ha).1
    | true =>
      obtain ⟨h0, h1, -⟩ := hinv.busy ha
      exact Or.inr ⟨h0, by omega⟩
  · intro ha _
    obtain ⟨h0, h1, -⟩ := hinv.busy ha
    exact arrayGet_isSome _ h0 (by rw [hwf.relays_len]; omega)
  · obtain ⟨pin, hp⟩ := arrayGet_isSome cfg.relayControlPins hlo
      (by rw [hwf.relays_len]; omega)
    obtain ⟨sp, hq⟩ := arrayGet_isSome cfg.sensorSignalPins hlo
      (by rw [hwf.sensors_len]; exact hhi)
    exact ⟨pin, sp, hp, hq⟩

theorem index_safety_witness :
    megaConfig.WF ∧ Reachable megaConfig megaBusy ∧
    (0 ≤ megaBusy.currentSensorIndex ∧ megaBusy.currentSensorIndex < megaConfig.NUM_SENSORS) ∧
    (∀ t : Tick, ∃ s2 out, loop megaConfig megaBusy t = some (s2, out)) :=
  have h := index_safety megaConfig megaConfig_wf megaBusy megaBusy_reachable
  ⟨megaConfig_wf, megaBusy_reachable, h.1, h.2.2.2.2⟩

/-! ## Hold time -/

theorem millis_of_lt {t : Tick} (h : t.now < ULONG_MOD) : millis t = t.now :=
  Nat.mod_eq_of_lt h

theorem manageActive_frame {cfg : Config} {s sm : State} {now : Nat} {o : List Event}
    (h : manageActive cfg s now = some (sm, o)) :
    sm.currentSensorIndex = s.currentSensorIndex ∧
    sm.lastCycleStartTime = s.lastCycleStartTime ∧
    sm.currentRelayOffTime = s.currentRelayOffTime ∧
    startsCycle o = false := by
  rcases manageActive_cases h with ⟨-, rfl, rfl⟩ | ⟨-, -, -, pin, -, rfl, rfl⟩
  · exact ⟨rfl, rfl, rfl, rfl⟩
  · exact ⟨rfl, rfl, rfl, rfl⟩

theorem startsCycle_startEvents (cfg : Config) (s : State) (t : Tick) (now sp : Nat) :
    startsCycle (startEvents cfg s t now sp) = true := rfl

theorem startsCycle_append (a b : List Event) :
    startsCycle (a ++ b) = (startsCycle a || startsCycle b) := by
  simp [startsCycle, List.any_append]

theorem loop_noop {cfg : Config} {s : State} {t : Tick}
    (h1 : ¬ (s.isRelayCurrentlyActive = true ∧ s.activeRelayIndex ≠ -1 ∧
      s.currentRelayOffTime ≤ millis t))
    (h2 : ¬ (s.isRelayCurrentlyActive = false ∧
      cfg.SENSOR_READ_CYCLE_INTERVAL ≤ usub (millis t) s.lastCycleStartTime)) :
    loop cfg s t = some (s, []) :=
  loop_eq_some.mpr ⟨s, [], [], manageActive_idle h1, startCycle_idle h2, rfl⟩

theorem run_noop {cfg : Config} {s : State} (ts : List Tick)
    (h : ∀ t ∈ ts, ¬ (s.isRelayCurrentlyActive = true ∧ s.activeRelayIndex ≠ -1 ∧
        s.currentRelayOffTime ≤ millis t) ∧
      ¬ (s.isRelayCurrentlyActive = false ∧
        cfg.SENSOR_READ_CYCLE_INTERVAL ≤ usub (millis t) s.lastCycleStartTime)) :
    run cfg s ts = some (s, []) := by
  induction ts with
  | nil => rfl
  | cons t rest ih =>
    have ht := h t (List.mem_cons_self _ _)
    simp only [run, loop_noop ht.1 ht.2, ih (fun u hu => h u (List.mem_cons_of_mem _ hu))]
    rfl

/-- A tick whose log shows a cycle start went through the cycle-start branch. -/
theorem loop_starts {cfg : Config} {s s1 : State} {t : Tick} {out : List Event}
    (h : loop cfg s t = some (s1, out)) (hon : startsCycle out = true) :
    ∃ sm o1 pin sp, manageActive cfg s (millis t) = some (sm, o1) ∧
      sm.isRelayCurrentlyActive = false ∧
      cfg.SENSOR_READ_CYCLE_INTERVAL ≤ usub (millis t) sm.lastCycleStartTime ∧
      arrayGet cfg.relayControlPins sm.currentSensorIndex = some pin ∧
      arrayGet cfg.sensorSignalPins sm.currentSensorIndex = some sp ∧
      s1 = startState cfg sm (millis t) pin ∧
      out = o1 ++ startEvents cfg sm t (millis t) sp := by
  obtain ⟨sm, o1, o2, hm, hs, rfl⟩ := loop_eq_some.mp h
  rcases startCycle_cases hs with ⟨-, -, rfl⟩ | ⟨ha, hd, pin, sp, hp, hq, rfl, rfl⟩
  · rw [startsCycle_append, (manageActive_frame hm).2.2.2] at hon
    exact absurd hon (by simp [startsCycle])
  · exact ⟨sm, o1, pin, sp, hm, ha, hd, hp, hq, rfl, rfl⟩

/-- A tick whose log shows no cycle start did not go through the cycle-start branch. -/
theorem loop_not_starts {cfg : Config} {s s1 : State} {t : Tick} {out : List Event}
    (h : loop cfg s t = some (s1, out)) (hon : startsCycle out = false) :
    manageActive cfg s (millis t) = some (s1, out) ∧
      ¬ (s1.isRelayCurrentlyActive = false ∧
        cfg.SENSOR_READ_CYCLE_INTERVAL ≤ usub (millis t) s1.lastCycleStartTime) := by
  obtain ⟨sm, o1, o2, hm, hs, rfl⟩ := loop_eq_some.mp h
  rcases startCycle_cases hs with ⟨hc, rfl, rfl⟩ | ⟨-, -, pin, sp, -, -, -, rfl⟩
  · exact ⟨by simpa using hm, hc⟩
  · rw [startsCycle_append, startsCycle_startEvents] at hon
    simp at hon

theorem relayOn_mem_loop {cfg : Config} {s s1 : State} {t : Tick} {out : List Event}
    {T : Nat} {i : Int} (h : loop cfg s t = some (s1, out)) (hon : Event.relayOn T i ∈ out) :
    T = millis t ∧ ∃ sm o1 pin sp, manageActive cfg s (millis t) = some (sm, o1) ∧
      sm.isRelayCurrentlyActive = false ∧ sm.currentSensorIndex = i ∧
      arrayGet cfg.relayControlPins i = some pin ∧
      s1 = startState cfg sm (millis t) pin ∧
      out = o1 ++ startEvents cfg sm t (millis t) sp := by
  have hs : startsCycle out = true :=
    List.any_eq_true.mpr ⟨_, hon, rfl⟩
  obtain ⟨sm, o1, pin, sp, hm, ha, -, hp, -, rfl, rfl⟩ := loop_starts h hs
  have hmem : Event.relayOn T i ∈ startEvents cfg sm t (millis t) sp := by
    rcases List.mem_append.mp hon with h1 | h2
    · rcases manageActive_cases hm with ⟨-, -, rfl⟩ | ⟨-, -, -, _, -, -, rfl⟩
      · exact absurd h1 (List.not_mem_nil _)
      · simp at h1
    · exact h2
  simp only [startEvents, List.mem_cons, Event.relayOn.injEq, List.mem_singleton,
    reduceCtorEq, false_or, or_false, List.not_mem_nil] at hmem
  obtain ⟨rfl, rfl⟩ := hmem
  exact ⟨rfl, sm, o1, pin, sp, hm, ha, rfl, hp, rfl, rfl⟩

/-- Hold time while the deadline stays inside the clock range: let the tick at
time `T` print the relay-on line of slot `i`, and let the deadline
`T + SENSOR_POWER_ON_DURATION` be below `2^32` (a bound on the deadline, beyond
the tick times being below `2^32`).  Then
after that tick the relay of slot `i` is energized, `activeRelayIndex = i` and
`currentRelayOffTime = T + SENSOR_POWER_ON_DURATION`, and every sequence of
ticks with `now < T + SENSOR_POWER_ON_DURATION` runs to completion, prints
nothing (no relay-off line) and leaves the whole state, the relay outputs
included, as it was: the relay stays energized and `activeRelayIndex` stays `i`
throughout. -/
theorem hold_time_not_cut_short (cfg : Config) (s s1 : State) (t0 : Tick)
    (out0 : List Event) (i : Int)
    (h0 : loop cfg s t0 = some (s1, out0))
    (hon : Event.relayOn t0.now i ∈ out0)
    (hT : t0.now + cfg.SENSOR_POWER_ON_DURATION < ULONG_MOD)
    (ts : List Tick) (hts : ∀ t ∈ ts, t.now < t0.now + cfg.SENSOR_POWER_ON_DURATION) :
    s1.isRelayCurrentlyActive = true ∧ s1.activeRelayIndex = i ∧
    relayEnergized cfg s1 i.toNat = true ∧
    s1.currentRelayOffTime = t0.now + cfg.SENSOR_POWER_ON_DURATION ∧
    run cfg s1 ts = some (s1, []) ∧
    (∀ k, run cfg s1 (ts.take k) = some (s1, [])) := by
  obtain ⟨-, sm, o1, pin, sp, -, -, hc, hp, rfl, -⟩ := relayOn_mem_loop h0 hon
  have hm : millis t0 = t0.now := millis_of_lt (by omega)
  have hoff : (startState cfg sm (millis t0) pin).currentRelayOffTime
      = t0.now + cfg.SENSOR_POWER_ON_DURATION := by
    simp only [startState, uadd, hm]
    exact Nat.mod_eq_of_lt hT
  have hfrozen : ∀ us : List Tick, (∀ t ∈ us, t.now < t0.now + cfg.SENSOR_POWER_ON_DURATION) →
      run cfg (startState cfg sm (millis t0) pin) us
        = some (startState cfg sm (millis t0) pin, []) := by
    intro us hus
    apply run_noop
    intro t ht
    have hlt := hus t ht
    have hmt : millis t = t.now := millis_of_lt (by omega)
    constructor
    · rintro ⟨-, -, hle⟩
      rw [hoff, hmt] at hle
      omega
    · rintro ⟨hf, -⟩
      simp [startState] at hf
  refine ⟨rfl, hc, ?_, hoff, hfrozen ts hts, fun k => hfrozen _ ?_⟩
  · subst hc
    exact (relayEnergized_update_same (arrayGet_eq_some.mp hp).2
      (writeRelayOn_eq cfg sm.pins pin)).trans (by simp)
  · intro t ht
    exact hts t (List.mem_of_mem_take ht)

theorem hold_time_not_cut_short_witness :
    megaBusy.isRelayCurrentlyActive = true ∧ megaBusy.activeRelayIndex = 0 ∧
    relayEnergized megaConfig megaBusy 0 = true ∧
    megaBusy.currentRelayOffTime = 6000 ∧
    run megaConfig megaBusy [tickAt 5100 true, tickAt 5999 false] = some (megaBusy, []) ∧
    (∀ k, run megaConfig megaBusy ([tickAt 5100 true, tickAt 5999 false].take k)
      = some (megaBusy, [])) :=
  hold_time_not_cut_short megaConfig megaInit megaBusy (tickAt 5000 true) _ 0
    megaBusy_loop (by decide) (by decide) [tickAt 5100 true, tickAt 5999 false]
    (by decide)

/-! ## Relay-off at the deadline, and ticks that do nothing -/

theorem run_append {cfg : Config} {s s1 s2 : State} {ts us : List Tick} {o1 o2 : List Event}
    (h1 : run cfg s ts = some (s1, o1)) (h2 : run cfg s1 us = some (s2, o2)) :
    run cfg s (ts ++ us) = some (s2, o1 ++ o2) := by
  induction ts generalizing s o1 with
  | nil =>
    simp only [run, Option.some.injEq, Prod.mk.injEq] at h1
    obtain ⟨rfl, rfl⟩ := h1
    simpa using h2
  | cons t rest ih =>
    simp only [run] at h1
    cases hl : loop cfg s t with
    | none => simp [hl] at h1
    | some r =>
      obtain ⟨sa, oa⟩ := r
      cases hr : run cfg sa rest with
      | none => simp [hl, hr] at h1
      | some r2 =>
        obtain ⟨sb, ob⟩ := r2
        simp only [hl, hr, Option.some.injEq, Prod.mk.injEq] at h1
        obtain ⟨rfl, rfl⟩ := h1
        have hih := ih hr
        rw [List.cons_append]
        simp only [run, hl, hih, List.append_assoc]

theorem run_singleton {cfg : Config} {s s1 : State} {t : Tick} {o : List Event}
    (h : loop cfg s t = some (s1, o)) : run cfg s [t] = some (s1, o) := by
  simp [run, h]

/-- C7 (no-op ticks): in any state, a tick that satisfies neither the relay-off
condition of `loop()` (flag set, index not `-1`, `millis() >=
currentRelayOffTime`) nor its cycle-start condition (flag clear, `millis() -
lastCycleStartTime >= SENSOR_READ_CYCLE_INTERVAL` in `unsigned long`
arithmetic) returns with the five scheduler variables and every pin output
unchanged and prints nothing (in particular no reading line: no sensor is
read); repeating such a tick any number of times gives the same state. -/
theorem noop_tick (cfg : Config) (s : State) (t : Tick)
    (h1 : ¬ (s.isRelayCurrentlyActive = true ∧ s.activeRelayIndex ≠ -1 ∧
      s.currentRelayOffTime ≤ millis t))
    (h2 : ¬ (s.isRelayCurrentlyActive = false ∧
      cfg.SENSOR_READ_CYCLE_INTERVAL ≤ usub (millis t) s.lastCycleStartTime))
    (n : Nat) :
    loop cfg s t = some (s, []) ∧ run cfg s (List.replicate n t) = some (s, []) :=
  ⟨loop_noop h1 h2, run_noop _ (fun u hu => by
    rw [List.eq_of_mem_replicate hu]; exact ⟨h1, h2⟩)⟩

theorem noop_tick_witness :
    loop megaConfig megaBusy (tickAt 5500 true) = some (megaBusy, []) ∧
    run megaConfig megaBusy (List.replicate 7 (tickAt 5500 true)) = some (megaBusy, []) :=
  noop_tick megaConfig megaBusy (tickAt 5500 true) (by decide) (by decide) 7

/-! ## Round-robin order -/

theorem slotsFrom_succ (n : Nat) (c : Int) (k : Nat) :
    slotsFrom n c (k + 1) = (c % (n : Int)) :: slotsFrom n ((c + 1) % (n : Int)) k := by
  unfold slotsFrom
  rw [List.range_succ_eq_map, List.map_cons, List.map_map]
  simp only [Nat.cast_zero, add_zero, List.cons.injEq, true_and]
  apply List.map_congr_left
  intro j _
  simp only [Function.comp, Nat.cast_succ, Int.emod_add_emod]
  congr 1
  ring

theorem slotsFrom_length (n : Nat) (c : Int) (k : Nat) : (slotsFrom n c k).length = k := by
  simp [slotsFrom]

theorem next_index_eq {n : Nat} {c : Int} (h0 : 0 ≤ c) (h1 : c < n) :
    (if c + 1 ≥ (n : Int) then 0 else c + 1) = (c + 1) % (n : Int) := by
  split
  · have : c + 1 = n := by omega
    rw [this, Int.emod_self]
  · rw [Int.emod_eq_of_lt (by omega) (by omega)]

theorem slots_manage {cfg : Config} {s sm : State} {now : Nat} {o : List Event}
    (h : manageActive cfg s now = some (sm, o)) :
    relayOnSlots o = [] ∧ readingSlots o = [] := by
  rcases manageActive_cases h with ⟨-, -, rfl⟩ | ⟨-, -, -, pin, -, -, rfl⟩ <;> exact ⟨rfl, rfl⟩

theorem relayOnSlots_append (a b : List Event) :
    relayOnSlots (a ++ b) = relayOnSlots a ++ relayOnSlots b := by
  simp [relayOnSlots, List.filterMap_append]

theorem readingSlots_append (a b : List Event) :
    readingSlots (a ++ b) = readingSlots a ++ readingSlots b := by
  simp [readingSlots, List.filterMap_append]

/-- The slots serviced by one tick: none, or the current one, after which the
index has advanced by one modulo `NUM_SENSORS`. -/
theorem loop_slots {cfg : Config} {s s1 : State} {t : Tick} {out : List Event}
    (hinv : Inv cfg s) (h : loop cfg s t = some (s1, out)) :
    (relayOnSlots out = [] ∧ readingSlots out = [] ∧
      s1.currentSensorIndex = s.currentSensorIndex) ∨
    (relayOnSlots out = [s.currentSensorIndex] ∧ readingSlots out = [s.currentSensorIndex] ∧
      s1.currentSensorIndex = (s.currentSensorIndex + 1) % (cfg.NUM_SENSORS : Int)) := by
  obtain ⟨sm, o1, o2, hm, hs, rfl⟩ := loop_eq_some.mp h
  obtain ⟨hc, -, -, -⟩ := manageActive_frame hm
  obtain ⟨hm1, hm2⟩ := slots_manage hm
  rw [relayOnSlots_append, readingSlots_append, hm1, hm2]
  rcases startCycle_cases hs with ⟨-, rfl, rfl⟩ | ⟨-, -, pin, sp, -, -, rfl, rfl⟩
  · exact Or.inl ⟨rfl, rfl, hc⟩
  · right
    refine ⟨by simp [relayOnSlots, startEvents, hc], by simp [readingSlots, startEvents, hc], ?_⟩
    rw [← hc, ← next_index_eq (hc ▸ hinv.idx_lo) (hc ▸ hinv.idx_hi)]
    rfl

theorem run_slots {cfg : Config} (hwf : cfg.WF) (ts : List Tick) {s : State}
    (hinv : Inv cfg s) :
    ∃ s2 out, run cfg s ts = some (s2, out) ∧
      relayOnSlots out
        = slotsFrom cfg.NUM_SENSORS s.currentSensorIndex (relayOnSlots out).length ∧
      readingSlots out = relayOnSlots out ∧
      s2.currentSensorIndex
        = (s.currentSensorIndex + ((relayOnSlots out).length : Int)) % (cfg.NUM_SENSORS : Int) := by
  induction ts generalizing s with
  | nil =>
    refine ⟨s, [], rfl, rfl, rfl, ?_⟩
    simp only [relayOnSlots, List.filterMap_nil, List.length_nil, Nat.cast_zero, add_zero]
    exact (Int.emod_eq_of_lt hinv.idx_lo hinv.idx_hi).symm
  | cons t rest ih =>
    obtain ⟨s1, o1, h1⟩ := loop_total hwf hinv t
    obtain ⟨s2, o2, h2, hon, hrd, hidx⟩ := ih (loop_inv hwf hinv h1)
    refine ⟨s2, o1 ++ o2, by simp only [run, h1, h2], ?_⟩
    rw [relayOnSlots_append, readingSlots_append]
    rcases loop_slots hinv h1 with ⟨e1, e2, e3⟩ | ⟨e1, e2, e3⟩
    · rw [e1, e2, List.nil_append, List.nil_append]
      rw [e3] at hon hidx
      exact ⟨hon, hrd, hidx⟩
    · rw [e1, e2, hrd]
      refine ⟨?_, rfl, ?_⟩
      · simp only [List.singleton_append, List.length_cons]
        rw [slotsFrom_succ, Int.emod_eq_of_lt hinv.idx_lo hinv.idx_hi, ← e3, ← hon]
      · simp only [List.singleton_append, List.length_cons, Nat.cast_succ]
        rw [hidx, e3, Int.emod_add_emod]
        congr 1
        ring

theorem slotsFrom_perm (n : Nat) (c : Int) :
    (slotsFrom n c n).Perm ((List.range n).map Int.ofNat) := by
  rcases Nat.eq_zero_or_pos n with rfl | hn
  · exact List.Perm.refl _
  have hnd : (slotsFrom n c n).Nodup := by
    unfold slotsFrom
    refine List.Nodup.map_on ?_ (List.nodup_range n)
    intro x hx y hy hxy
    have hx1 := List.mem_range.mp hx
    have hy1 := List.mem_range.mp hy
    have h1 : ((x : Int)) % (n : Int) = (y : Int) % (n : Int) :=
      Int.ModEq.add_left_cancel' c hxy
    rw [Int.emod_eq_of_lt (by omega) (by omega), Int.emod_eq_of_lt (by omega) (by omega)] at h1
    exact_mod_cast h1
  have hsub : slotsFrom n c n ⊆ (List.range n).map Int.ofNat := by
    intro v hv
    unfold slotsFrom at hv
    obtain ⟨j, -, rfl⟩ := List.mem_map.mp hv
    have hpos : (0 : Int) < n := by exact_mod_cast hn
    have h0 := Int.emod_nonneg (c + j) (ne_of_gt hpos)
    have h1 := Int.emod_lt_of_pos (c + j) hpos
    refine List.mem_map.mpr ⟨((c + j) % (n : Int)).toNat, List.mem_range.mpr (by omega), ?_⟩
    simp only [Int.ofNat_eq_coe]
    omega
  exact (List.subperm_of_subset hnd hsub).perm_of_length_le
    (by simp [slotsFrom_length])

/-- C4 (round-robin completeness): from a reachable state with
`currentSensorIndex = c`, any sequence of ticks runs to completion, and if `k`
of them start a cycle, the slots of the relay-on lines printed are `c, c+1,
..., c+k-1` modulo `NUM_SENSORS` in that order, the slots of the sensor-value
lines are the same, and `currentSensorIndex` ends at `(c + k) mod NUM_SENSORS`.
For `k = NUM_SENSORS` every slot of `[0, NUM_SENSORS)` is serviced exactly once
and `currentSensorIndex` is back at `c`. -/
theorem round_robin (cfg : Config) (hwf : cfg.WF) (s : State) (hr : Reachable cfg s)
    (ts : List Tick) :
    ∃ s2 out, run cfg s ts = some (s2, out) ∧
      relayOnSlots out
        = slotsFrom cfg.NUM_SENSORS s.currentSensorIndex (relayOnSlots out).length ∧
      readingSlots out = relayOnSlots out ∧
      s2.currentSensorIndex
        = (s.currentSensorIndex + ((relayOnSlots out).length : Int))
            % (cfg.NUM_SENSORS : Int) ∧
      ((relayOnSlots out).length = cfg.NUM_SENSORS →
        (relayOnSlots out).Perm ((List.range cfg.NUM_SENSORS).map Int.ofNat) ∧
        s2.currentSensorIndex = s.currentSensorIndex) := by
  have hinv := reachable_inv hwf hr
  obtain ⟨s2, out, h, hon, hrd, hidx⟩ := run_slots hwf ts hinv
  refine ⟨s2, out, h, hon, hrd, hidx, fun hk => ⟨?_, ?_⟩⟩
  · rw [hon, hk]
    exact slotsFrom_perm _ _
  · rw [hidx, hk, Int.add_emod_self]
    exact Int.emod_eq_of_lt hinv.idx_lo hinv.idx_hi

/-! ## Cadence -/

theorem round_robin_witness :
    ∃ s2 out, run megaConfig megaInit
        ((List.range 12).map fun (k : Nat) => tickAt (5000 * (k + 1)) true) = some (s2, out) ∧
      relayOnSlots out
        = slotsFrom megaConfig.NUM_SENSORS megaInit.currentSensorIndex
            (relayOnSlots out).length ∧
      readingSlots out = relayOnSlots out ∧
      s2.currentSensorIndex
        = (megaInit.currentSensorIndex + ((relayOnSlots out).length : Int))
            % (megaConfig.NUM_SENSORS : Int) ∧
      ((relayOnSlots out).length = megaConfig.NUM_SENSORS →
        (relayOnSlots out).Perm ((List.range megaConfig.NUM_SENSORS).map Int.ofNat) ∧
        s2.currentSensorIndex = megaInit.currentSensorIndex) :=
  round_robin megaConfig megaConfig_wf megaInit megaInit_reachable _

theorem usub_of_le {a b : Nat} (ha : a < ULONG_MOD) (hb : b ≤ a) : usub a b = a - b := by
  simp only [usub, ULONG_MOD] at *
  omega

theorem since_start {cfg : Config} {sm : State} {t0 : Tick} {pin : Nat}
    (hp : arrayGet cfg.relayControlPins sm.currentSensorIndex = some pin)
    (hT : t0.now + cfg.SENSOR_POWER_ON_DURATION < ULONG_MOD) :
    Since cfg t0.now (startState cfg sm (millis t0) pin) t0.now := by
  have hm : millis t0 = t0.now := millis_of_lt (by omega)
  refine ⟨hm, fun _ => ⟨?_, ?_⟩, fun h => absurd h (by simp [startState])⟩
  · have := (arrayGet_lt hp).1
    simp only [startState]
    omega
  · simp only [startState, uadd, hm]
    exact Nat.mod_eq_of_lt hT

theorem since_step {cfg : Config} {T m : Nat} {s s1 : State} {u : Tick} {o : List Event}
    (hj : Since cfg T s m) (h : loop cfg s u = some (s1, o)) (hno : startsCycle o = false)
    (hmu : m ≤ u.now) (hu : u.now < ULONG_MOD) : Since cfg T s1 u.now := by
  obtain ⟨hm, -⟩ := loop_not_starts h hno
  have hmu2 : millis u = u.now := millis_of_lt hu
  rcases manageActive_cases hm with ⟨-, rfl, -⟩ | ⟨ha, -, hd, pin, -, rfl, -⟩
  · exact ⟨hj.last, hj.busy, fun hi => le_trans (hj.idle hi) hmu⟩
  · refine ⟨hj.last, fun hb => absurd hb (by simp), fun _ => ?_⟩
    have := (hj.busy ha).2
    omega

theorem chain_le_last (u : Tick) (rest : List Tick) (t : Tick)
    (h : List.Chain (fun a b : Tick => a.now ≤ b.now) u (rest ++ [t])) : u.now ≤ t.now := by
  induction rest generalizing u with
  | nil =>
    simp only [List.nil_append, List.chain_cons, List.Chain.nil, and_true] at h
    exact h
  | cons v rest ih =>
    rw [List.cons_append, List.chain_cons] at h
    exact le_trans h.1 (ih v h.2)

theorem since_run {cfg : Config} {T : Nat} {t : Tick} (ht : t.now < ULONG_MOD)
    (ts : List Tick) (prev : Tick) {s s2 : State} {outs : List Event}
    (hj : Since cfg T s prev.now)
    (hch : List.Chain (fun a b : Tick => a.now ≤ b.now) prev (ts ++ [t]))
    (hrun : run cfg s ts = some (s2, outs)) (hno : startsCycle outs = false) :
    ∃ m, Since cfg T s2 m ∧ m ≤ t.now := by
  induction ts generalizing prev s outs with
  | nil =>
    simp only [run, Option.some.injEq, Prod.mk.injEq] at hrun
    obtain ⟨rfl, -⟩ := hrun
    exact ⟨prev.now, hj, chain_le_last prev [] t hch⟩
  | cons u rest ih =>
    rw [List.cons_append, List.chain_cons] at hch
    simp only [run] at hrun
    cases hl : loop cfg s u with
    | none => simp [hl] at hrun
    | some r =>
      obtain ⟨sa, oa⟩ := r
      cases hr : run cfg sa rest with
      | none => simp [hl, hr] at hrun
      | some r2 =>
        obtain ⟨sb, ob⟩ := r2
        simp only [hl, hr, Option.some.injEq, Prod.mk.injEq] at hrun
        obtain ⟨rfl, rfl⟩ := hrun
        rw [startsCycle_append, Bool.or_eq_false_iff] at hno
        have hu : u.now < ULONG_MOD := lt_of_le_of_lt (chain_le_last u rest t hch.2) ht
        exact ih u (since_step hj hl hno.1 hch.1 hu) hch.2 hr hno.2

theorem run_last_of_not_starts {cfg : Config} (ts : List Tick) {s s2 : State}
    {outs : List Event} (hrun : run cfg s ts = some (s2, outs))
    (hno : startsCycle outs = false) : s2.lastCycleStartTime = s.lastCycleStartTime := by
  induction ts generalizing s outs with
  | nil =>
    simp only [run, Option.some.injEq, Prod.mk.injEq] at hrun
    rw [← hrun.1]
  | cons u rest ih =>
    simp only [run] at hrun
    cases hl : loop cfg s u with
    | none => simp [hl] at hrun
    | some r =>
      obtain ⟨sa, oa⟩ := r
      cases hr : run cfg sa rest with
      | none => simp [hl, hr] at hrun
      | some r2 =>
        obtain ⟨sb, ob⟩ := r2
        simp only [hl, hr, Option.some.injEq, Prod.mk.injEq] at hrun
        obtain ⟨rfl, rfl⟩ := hrun
        rw [startsCycle_append, Bool.or_eq_false_iff] at hno
        rw [ih hr hno.2]
        exact (manageActive_frame (loop_not_starts hl hno.1).1).2.1

/-- Cadence floor while the deadline stays inside the clock range: for every
configuration, if the tick at `T` starts a cycle, the following ticks start
none, and a later tick at `T2` starts the next cycle, with non-decreasing tick
times below `2^32` and, when the power-on duration exceeds the cycle interval,
the deadline `T + SENSOR_POWER_ON_DURATION` below `2^32` as well, then
`T2 - T >= max(SENSOR_READ_CYCLE_INTERVAL, SENSOR_POWER_ON_DURATION)`.  With
`SENSOR_READ_CYCLE_INTERVAL >= SENSOR_POWER_ON_DURATION`, as in the sketch, the
bound on the deadline is not needed. -/
theorem cadence_floor (cfg : Config) (s s1 s2 s3 : State) (t0 t : Tick) (ts : List Tick)
    (out0 outs out : List Event)
    (h0 : loop cfg s t0 = some (s1, out0)) (hon0 : startsCycle out0 = true)
    (hrun : run cfg s1 ts = some (s2, outs)) (hnone : startsCycle outs = false)
    (h1 : loop cfg s2 t = some (s3, out)) (hon1 : startsCycle out = true)
    (hmono : List.Chain (fun a b : Tick => a.now ≤ b.now) t0 (ts ++ [t]))
    (hwrap : t.now < ULONG_MOD)
    (hdead : cfg.SENSOR_READ_CYCLE_INTERVAL < cfg.SENSOR_POWER_ON_DURATION →
      t0.now + cfg.SENSOR_POWER_ON_DURATION < ULONG_MOD) :
    t0.now + max cfg.SENSOR_READ_CYCLE_INTERVAL cfg.SENSOR_POWER_ON_DURATION ≤ t.now := by
  obtain ⟨sm0, -, pin0, -, -, -, -, hp0, -, rfl, -⟩ := loop_starts h0 hon0
  obtain ⟨sm, o1, pin, sp, hma, hidle, hint, -, -, -, -⟩ := loop_starts h1 hon1
  have hle : t0.now ≤ t.now := chain_le_last t0 ts t hmono
  have hmt : millis t = t.now := millis_of_lt hwrap
  have hm0 : millis t0 = t0.now := millis_of_lt (lt_of_le_of_lt hle hwrap)
  have hlast : s2.lastCycleStartTime = t0.now :=
    (run_last_of_not_starts ts hrun hnone).trans hm0
  rw [(manageActive_frame hma).2.1, hlast, hmt, usub_of_le hwrap hle] at hint
  by_cases hT : t0.now + cfg.SENSOR_POWER_ON_DURATION < ULONG_MOD
  · obtain ⟨m, hj, hm⟩ := since_run hwrap ts t0 (since_start hp0 hT) hmono hrun hnone
    have hP : t0.now + cfg.SENSOR_POWER_ON_DURATION ≤ t.now := by
      rcases manageActive_cases hma with ⟨-, rfl, -⟩ | ⟨ha, -, hd, -, -, -, -⟩
      · exact le_trans (hj.idle hidle) hm
      · rw [(hj.busy ha).2, hmt] at hd
        exact hd
    rcases le_total cfg.SENSOR_READ_CYCLE_INTERVAL cfg.SENSOR_POWER_ON_DURATION with h | h
    · rw [max_eq_right h]; exact hP
    · rw [max_eq_left h]; omega
  · have h : cfg.SENSOR_POWER_ON_DURATION ≤ cfg.SENSOR_READ_CYCLE_INTERVAL :=
      not_lt.mp (fun hlt => hT (hdead hlt))
    rw [max_eq_left h]
    omega

/-! ## The scenario of the spec -/

theorem millis_envTick (env : Nat → Nat → Bool) (n : Nat) (h : n < ULONG_MOD) :
    millis (envTick env n) = n := Nat.mod_eq_of_lt h

theorem loop_noop_at {cfg : Config} {s : State} {t : Tick} (now : Nat) (hnow : millis t = now)
    (h1 : ¬ (s.isRelayCurrentlyActive = true ∧ s.activeRelayIndex ≠ -1 ∧
      s.currentRelayOffTime ≤ now))
    (h2 : ¬ (s.isRelayCurrentlyActive = false ∧
      cfg.SENSOR_READ_CYCLE_INTERVAL ≤ usub now s.lastCycleStartTime)) :
    loop cfg s t = some (s, []) := by
  subst hnow
  exact loop_noop h1 h2

theorem loop_start_at {cfg : Config} {s : State} {t : Tick} {pin sp : Nat} (now : Nat)
    (hnow : millis t = now) (ha : s.isRelayCurrentlyActive = false)
    (hd : cfg.SENSOR_READ_CYCLE_INTERVAL ≤ usub now s.lastCycleStartTime)
    (hp : arrayGet cfg.relayControlPins s.currentSensorIndex = some pin)
    (hq : arrayGet cfg.sensorSignalPins s.currentSensorIndex = some sp) :
    loop cfg s t = some (startState cfg s now pin, startEvents cfg s t now sp) := by
  subst hnow
  exact loop_eq_some.mpr ⟨s, [], _,
    manageActive_idle (fun h => by rw [ha] at h; exact absurd h.1 (by decide)),
    startCycle_start ha hd hp hq, rfl⟩

theorem loop_off_at {cfg : Config} {s : State} {t : Tick} {pin : Nat} (now : Nat)
    (hnow : millis t = now)
    (ha : s.isRelayCurrentlyActive = true) (hi : s.activeRelayIndex ≠ -1)
    (hd : s.currentRelayOffTime ≤ now)
    (hp : arrayGet cfg.relayControlPins s.activeRelayIndex = some pin)
    (h2 : ¬ cfg.SENSOR_READ_CYCLE_INTERVAL ≤ usub now s.lastCycleStartTime) :
    loop cfg s t = some (offState cfg s pin, [Event.relayOff now s.activeRelayIndex]) := by
  subst hnow
  exact loop_eq_some.mpr ⟨_, _, [], manageActive_off ha hi hd hp,
    startCycle_idle (fun h => h2 h.2), rfl⟩

theorem loop_off_start_at {cfg : Config} {s : State} {t : Tick} {pin pin2 sp : Nat} (now : Nat)
    (hnow : millis t = now)
    (ha : s.isRelayCurrentlyActive = true) (hi : s.activeRelayIndex ≠ -1)
    (hd : s.currentRelayOffTime ≤ now)
    (hp : arrayGet cfg.relayControlPins s.activeRelayIndex = some pin)
    (h2 : cfg.SENSOR_READ_CYCLE_INTERVAL ≤ usub now s.lastCycleStartTime)
    (hp2 : arrayGet cfg.relayControlPins s.currentSensorIndex = some pin2)
    (hq : arrayGet cfg.sensorSignalPins s.currentSensorIndex = some sp) :
    loop cfg s t
      = some (startState cfg (offState cfg s pin) now pin2,
          Event.relayOff now s.activeRelayIndex
            :: startEvents cfg (offState cfg s pin) t now sp) := by
  subst hnow
  exact loop_eq_some.mpr ⟨_, _, _, manageActive_off ha hi hd hp,
    startCycle_start (s := offState cfg s pin) rfl h2 hp2 hq, rfl⟩

theorem runLog_cons {cfg : Config} {s s1 : State} {t : Tick} {rest : List Tick}
    {out : List Event} {outs : List (List Event)} (h1 : loop cfg s t = some (s1, out))
    (h2 : runLog cfg s1 rest = some outs) : runLog cfg s (t :: rest) = some (out :: outs) := by
  simp only [runLog, h1, h2]

theorem scenarioInit_setup :
    setup (scenarioConfig 54 55 56 5000) resetPins = some scenarioInit := rfl

/-- C6, as stated, fails: in the scenario (three slots, power-on duration
1000, cycle interval 5000, stabilization delay 100) the tick at `t = 0` from
the state left by `setup()` prints nothing and changes nothing, because
`0 - lastCycleStartTime = 0 < 5000`; it prints no relay-on line. -/
theorem scenario_tick_zero_silent :
    setup (scenarioConfig 54 55 56 5000) resetPins = some scenarioInit ∧
    loop (scenarioConfig 54 55 56 5000) scenarioInit (tickAt 0 true) = some (scenarioInit, []) ∧
    ¬ ∃ s1 out, loop (scenarioConfig 54 55 56 5000) scenarioInit (tickAt 0 true)
        = some (s1, out) ∧ Event.relayOn 0 0 ∈ out := by
  refine ⟨scenarioInit_setup, rfl, ?_⟩
  rintro ⟨s1, out, h, hmem⟩
  have h2 : loop (scenarioConfig 54 55 56 5000) scenarioInit (tickAt 0 true)
      = some (scenarioInit, []) := rfl
  rw [h2] at h
  simp only [Option.some.injEq, Prod.mk.injEq] at h
  rw [← h.2] at hmem
  exact absurd hmem (List.not_mem_nil _)

/-- C6, amended: in the scenario (three slots, power-on duration 1000, cycle
interval 5000, stabilization delay 100), from the state left by `setup()`
(index 0, no relay active, timestamps zero), the ticks at `t = 0` and
`t = 1000` print nothing; the tick at `t = 5000` prints the cycle-start and
relay-on lines of slot 0, then its reading, read at `5100`; the tick at `6000`
prints relay-off of slot 0; the tick at `10000` services slot 1 (reading at
`10100`); the tick at `11000` prints relay-off of slot 1; the tick at `15000`
services slot 2; the tick at `16000` prints relay-off of slot 2; and the tick
at `20000` services slot 0 again. -/
theorem scenario_trace (A0 A1 A2 : Nat) (pins0 : Nat → Bool) (env : Nat → Nat → Bool) :
    setup (scenarioConfig A0 A1 A2 5000) pins0
      = some (initState (scenarioConfig A0 A1 A2 5000) pins0) ∧
    runLog (scenarioConfig A0 A1 A2 5000) (initState (scenarioConfig A0 A1 A2 5000) pins0)
        ([0, 1000, 5000, 6000, 10000, 11000, 15000, 16000, 20000].map (envTick env))
      = some
        [[], [],
         [Event.cycleStart 5000 0, Event.relayOn 5000 0,
          Event.reading 5100 0 2 (env 5000 2 == HIGH)],
         [Event.relayOff 6000 0],
         [Event.cycleStart 10000 1, Event.relayOn 10000 1,
          Event.reading 10100 1 3 (env 10000 3 == HIGH)],
         [Event.relayOff 11000 1],
         [Event.cycleStart 15000 2, Event.relayOn 15000 2,
          Event.reading 15100 2 4 (env 15000 4 == HIGH)],
         [Event.relayOff 16000 2],
         [Event.cycleStart 20000 0, Event.relayOn 20000 0,
          Event.reading 20100 0 2 (env 20000 2 == HIGH)]] := by
  refine ⟨rfl, ?_⟩
  set cfg := scenarioConfig A0 A1 A2 5000 with hcfg
  set s0 := initState cfg pins0 with hs0
  have e0 : loop cfg s0 (envTick env 0) = some (s0, []) :=
    loop_noop_at 0 (millis_envTick env 0 (by decide))
      (fun h => Bool.false_ne_true h.1)
      (fun h => absurd h.2 (show ¬ (5000 ≤ usub 0 0) by decide))
  have e1 : loop cfg s0 (envTick env 1000) = some (s0, []) :=
    loop_noop_at 1000 (millis_envTick env 1000 (by decide))
      (fun h => Bool.false_ne_true h.1)
      (fun h => absurd h.2 (show ¬ (5000 ≤ usub 1000 0) by decide))
  have e2 : loop cfg s0 (envTick env 5000)
      = some (startState cfg s0 5000 A0, startEvents cfg s0 (envTick env 5000) 5000 2) :=
    loop_start_at 5000 (millis_envTick env 5000 (by decide)) rfl
      (show 5000 ≤ usub 5000 0 by decide) rfl rfl
  set s1 := startState cfg s0 5000 A0 with hs1
  have e3 : loop cfg s1 (envTick env 6000) = some (offState cfg s1 A0, [Event.relayOff 6000 0]) :=
    loop_off_at 6000 (millis_envTick env 6000 (by decide)) rfl (show (0 : Int) ≠ -1 by decide)
      (show uadd 5000 1000 ≤ 6000 by decide) rfl
      (show ¬ (5000 ≤ usub 6000 5000) by decide)
  set s2 := offState cfg s1 A0 with hs2
  have e4 : loop cfg s2 (envTick env 10000)
      = some (startState cfg s2 10000 A1, startEvents cfg s2 (envTick env 10000) 10000 3) :=
    loop_start_at 10000 (millis_envTick env 10000 (by decide)) rfl
      (show 5000 ≤ usub 10000 5000 by decide) rfl rfl
  set s3 := startState cfg s2 10000 A1 with hs3
  have e5 : loop cfg s3 (envTick env 11000)
      = some (offState cfg s3 A1, [Event.relayOff 11000 1]) :=
    loop_off_at 11000 (millis_envTick env 11000 (by decide)) rfl (show (1 : Int) ≠ -1 by decide)
      (show uadd 10000 1000 ≤ 11000 by decide) rfl
      (show ¬ (5000 ≤ usub 11000 10000) by decide)
  set s4 := offState cfg s3 A1 with hs4
  have e6 : loop cfg s4 (envTick env 15000)
      = some (startState cfg s4 15000 A2, startEvents cfg s4 (envTick env 15000) 15000 4) :=
    loop_start_at 15000 (millis_envTick env 15000 (by decide)) rfl
      (show 5000 ≤ usub 15000 10000 by decide) rfl rfl
  set s5 := startState cfg s4 15000 A2 with hs5
  have e7 : loop cfg s5 (envTick env 16000)
      = some (offState cfg s5 A2, [Event.relayOff 16000 2]) :=
    loop_off_at 16000 (millis_envTick env 16000 (by decide)) rfl (show (2 : Int) ≠ -1 by decide)
      (show uadd 15000 1000 ≤ 16000 by decide) rfl
      (show ¬ (5000 ≤ usub 16000 15000) by decide)
  set s6 := offState cfg s5 A2 with hs6
  have e8 : loop cfg s6 (envTick env 20000)
      = some (startState cfg s6 20000 A0, startEvents cfg s6 (envTick env 20000) 20000 2) :=
    loop_start_at 20000 (millis_envTick env 20000 (by decide)) rfl
      (show 5000 ≤ usub 20000 15000 by decide) rfl rfl
  have u1 : uadd 5000 100 = 5100 := by decide
  have u2 : uadd 10000 100 = 10100 := by decide
  have u3 : uadd 15000 100 = 15100 := by decide
  have u4 : uadd 20000 100 = 20100 := by decide
  have v2 : startEvents cfg s0 (envTick env 5000) 5000 2
      = [Event.cycleStart 5000 0, Event.relayOn 5000 0,
          Event.reading 5100 0 2 (env 5000 2 == HIGH)] := by
    rw [← u1]; rfl
  have v4 : startEvents cfg s2 (envTick env 10000) 10000 3
      = [Event.cycleStart 10000 1, Event.relayOn 10000 1,
          Event.reading 10100 1 3 (env 10000 3 == HIGH)] := by
    rw [← u2]; rfl
  have v6 : startEvents cfg s4 (envTick env 15000) 15000 4
      = [Event.cycleStart 15000 2, Event.relayOn 15000 2,
          Event.reading 15100 2 4 (env 15000 4 == HIGH)] := by
    rw [← u3]; rfl
  have v8 : startEvents cfg s6 (envTick env 20000) 20000 2
      = [Event.cycleStart 20000 0, Event.relayOn 20000 0,
          Event.reading 20100 0 2 (env 20000 2 == HIGH)] := by
    rw [← u4]; rfl
  rw [v2] at e2
  rw [v4] at e4
  rw [v6] at e6
  rw [v8] at e8
  exact runLog_cons e0 (runLog_cons e1 (runLog_cons e2 (runLog_cons e3 (runLog_cons e4
    (runLog_cons e5 (runLog_cons e6 (runLog_cons e7 (runLog_cons e8 rfl))))))))

theorem fastBusy_loop :
    loop fastConfig fastInit (tickAt 500 true)
      = some (fastBusy, startEvents fastConfig fastInit (tickAt 500 true) 500 2) := rfl

theorem fastBusy2_loop :
    loop fastConfig fastBusy (tickAt 1500 true)
      = some (fastBusy2, Event.relayOff 1500 0
          :: startEvents fastConfig (offState fastConfig fastBusy 54) (tickAt 1500 true) 1500 3) :=
  rfl

theorem cadence_floor_witness :
    (tickAt 500 true).now
        + max fastConfig.SENSOR_READ_CYCLE_INTERVAL fastConfig.SENSOR_POWER_ON_DURATION
      ≤ (tickAt 1500 true).now :=
  cadence_floor fastConfig fastInit fastBusy fastBusy fastBusy2 (tickAt 500 true)
    (tickAt 1500 true) [tickAt 1000 true] _ [] _ fastBusy_loop rfl rfl rfl fastBusy2_loop rfl
    (List.Chain.cons (by decide) (List.Chain.cons (by decide) List.Chain.nil))
    (by decide) (fun _ => by decide)

/-! ## The next cycle start -/

/-- C9 (the index advance does not depend on the reading): take a state with
`0 <= currentSensorIndex < NUM_SENSORS` and two ticks with the same timestamp
and arbitrary sensor levels (so the sensor may read HIGH in one and LOW in the
other).  If the first tick starts a cycle, then `currentSensorIndex` becomes
`(currentSensorIndex + 1) mod NUM_SENSORS`, the second tick returns the very
same state (the five variables and all pin outputs), and the two logs are
equal once the level carried by the sensor-value line is forgotten. -/
theorem index_advance_independent (cfg : Config) (s : State) (t1 t2 : Tick)
    (hnow : t1.now = t2.now)
    (hlo : 0 ≤ s.currentSensorIndex) (hhi : s.currentSensorIndex < cfg.NUM_SENSORS)
    (s1 : State) (out1 : List Event)
    (h1 : loop cfg s t1 = some (s1, out1)) (hst : startsCycle out1 = true) :
    s1.currentSensorIndex = (s.currentSensorIndex + 1) % (cfg.NUM_SENSORS : Int) ∧
    ∃ out2, loop cfg s t2 = some (s1, out2) ∧
      out1.map Event.forgetLevel = out2.map Event.forgetLevel ∧
      out1.length = out2.length := by
  obtain ⟨sm, o1, pin, sp, hm, ha, hd, hp, hq, rfl, rfl⟩ := loop_starts h1 hst
  have hmil : millis t2 = millis t1 := by simp only [millis, hnow]
  have hc := (manageActive_frame hm).1
  refine ⟨?_, o1 ++ startEvents cfg sm t2 (millis t1) sp, ?_, ?_, ?_⟩
  · rw [← next_index_eq hlo hhi, ← hc]
    rfl
  · exact loop_eq_some.mpr ⟨sm, o1, _, by rw [hmil]; exact hm,
      by rw [hmil]; exact startCycle_start ha hd hp hq, rfl⟩
  · simp [startEvents, Event.forgetLevel]
  · simp [startEvents]

theorem index_advance_independent_witness :
    megaBusy.currentSensorIndex
      = (megaInit.currentSensorIndex + 1) % (megaConfig.NUM_SENSORS : Int) ∧
    ∃ out2, loop megaConfig megaInit (tickAt 5000 false) = some (megaBusy, out2) ∧
      (startEvents megaConfig megaInit (tickAt 5000 true) 5000 2).map Event.forgetLevel
        = out2.map Event.forgetLevel ∧
      (startEvents megaConfig megaInit (tickAt 5000 true) 5000 2).length = out2.length :=
  index_advance_independent megaConfig megaInit (tickAt 5000 true) (tickAt 5000 false) rfl
    (by decide) (by decide) megaBusy _ megaBusy_loop rfl

/-! ## A deadline past the end of the clock range -/

/-- C2 (hold time is never cut short) fails on the sketch.  With the sketch's
constants, from the state left by `setup()`, the tick at `T = 2^32 - 500`
prints the relay-on line of slot 0 and stores the relay-off time
`(T + 1000) mod 2^32 = 500`.  The next tick, at `2^32 - 400`, is later than
`T`, below `2^32` (the timestamps are non-decreasing and do not wrap) and
earlier than `T + SENSOR_POWER_ON_DURATION`; it prints the relay-off line of
slot 0, writes the de-energized level to relay 0 and sets `activeRelayIndex`
to `-1`, 100 ms after the relay-on. -/
theorem hold_time_cut_short_near_wrap :
    setup megaConfig resetPins = some megaInit ∧
    loop megaConfig megaInit (tickAt 4294966796 true)
      = some (wrapBusy, startEvents megaConfig megaInit (tickAt 4294966796 true) 4294966796 2) ∧
    Event.relayOn (tickAt 4294966796 true).now 0
      ∈ startEvents megaConfig megaInit (tickAt 4294966796 true) 4294966796 2 ∧
    relayEnergized megaConfig wrapBusy 0 = true ∧
    wrapBusy.activeRelayIndex = 0 ∧
    wrapBusy.currentRelayOffTime = 500 ∧
    (tickAt 4294966796 true).now ≤ (tickAt 4294966896 true).now ∧
    (tickAt 4294966896 true).now < ULONG_MOD ∧
    (tickAt 4294966896 true).now
      < (tickAt 4294966796 true).now + megaConfig.SENSOR_POWER_ON_DURATION ∧
    loop megaConfig wrapBusy (tickAt 4294966896 true)
      = some (offState megaConfig wrapBusy 54, [Event.relayOff 4294966896 0]) ∧
    (offState megaConfig wrapBusy 54).isRelayCurrentlyActive = false ∧
    (offState megaConfig wrapBusy 54).activeRelayIndex = -1 ∧
    relayEnergized megaConfig (offState megaConfig wrapBusy 54) 0 = false :=
  ⟨rfl, rfl, by decide, rfl, rfl, rfl, by decide, by decide, by decide, rfl, rfl, rfl, rfl⟩

/-- C5 (cadence floor) fails on the code.  In the spec's configuration with
cycle interval 500 and power-on duration 1000, from the state left by
`setup()`, the tick at `T = 2^32 - 700` starts the cycle of slot 0 and stores
the relay-off time `(T + 1000) mod 2^32 = 300`.  The next tick, at
`2^32 - 200`, is later than `T` and below `2^32` (the timestamps are
non-decreasing and do not wrap); it passes the relay-off check, switches
relay 0 off and starts the cycle of slot 1.  The two consecutive cycle starts
are 500 ms apart, less than `max(500, 1000) = 1000`. -/
theorem cadence_floor_broken_near_wrap :
    setup fastConfig resetPins = some fastInit ∧
    loop fastConfig fastInit (tickAt 4294966596 true)
      = some (fastWrapBusy,
          startEvents fastConfig fastInit (tickAt 4294966596 true) 4294966596 2) ∧
    startsCycle (startEvents fastConfig fastInit (tickAt 4294966596 true) 4294966596 2)
      = true ∧
    fastWrapBusy.currentRelayOffTime = 300 ∧
    loop fastConfig fastWrapBusy (tickAt 4294967096 true)
      = some (fastWrapBusy2, Event.relayOff 4294967096 0
          :: startEvents fastConfig (offState fastConfig fastWrapBusy 54)
              (tickAt 4294967096 true) 4294967096 3) ∧
    startsCycle (Event.relayOff 4294967096 0
      :: startEvents fastConfig (offState fastConfig fastWrapBusy 54)
          (tickAt 4294967096 true) 4294967096 3) = true ∧
    fastWrapBusy2.activeRelayIndex = 1 ∧
    (tickAt 4294966596 true).now ≤ (tickAt 4294967096 true).now ∧
    (tickAt 4294967096 true).now < ULONG_MOD ∧
    (tickAt 4294967096 true).now - (tickAt 4294966596 true).now = 500 ∧
    max fastConfig.SENSOR_READ_CYCLE_INTERVAL fastConfig.SENSOR_POWER_ON_DURATION = 1000 ∧
    ¬ ((tickAt 4294966596 true).now
        + max fastConfig.SENSOR_READ_CYCLE_INTERVAL fastConfig.SENSOR_POWER_ON_DURATION
      ≤ (tickAt 4294967096 true).now) :=
  ⟨rfl, rfl, rfl, rfl, rfl, rfl, rfl, by decide, by decide, by decide, by decide, by decide⟩

/-! ## Coupling of the active relay -/

theorem setup_coupled {cfg : Config} {pins0 : Nat → Bool} {s : State}
    (h : setup cfg pins0 = some s) : Coupled cfg s := by
  have ha : s.isRelayCurrentlyActive = false := by
    unfold setup at h
    split at h
    · exact absurd h (by simp)
    · split at h
      · exact absurd h (by simp)
      · simp only [Option.some.injEq] at h
        rw [← h]
  exact ⟨fun hb => by rw [ha] at hb; exact absurd hb (by simp),
    fun hb => by rw [ha] at hb; exact absurd hb (by simp)⟩

theorem loop_coupled {cfg : Config} {s s1 : State} {t : Tick} {out : List Event}
    (hinv : Inv cfg s) (hc : Coupled cfg s) (h : loop cfg s t = some (s1, out)) :
    Coupled cfg s1 := by
  obtain ⟨sm, o1, o2, hm, hs, -⟩ := loop_eq_some.mp h
  have hcm : Coupled cfg sm ∧ 0 ≤ sm.currentSensorIndex ∧
      sm.currentSensorIndex < cfg.NUM_SENSORS := by
    rcases manageActive_cases hm with ⟨-, rfl, -⟩ | ⟨-, -, -, pin, -, rfl, -⟩
    · exact ⟨hc, hinv.idx_lo, hinv.idx_hi⟩
    · exact ⟨⟨fun hb => absurd hb (by simp), fun hb => absurd hb (by simp)⟩,
        hinv.idx_lo, hinv.idx_hi⟩
  rcases startCycle_cases hs with ⟨-, rfl, -⟩ | ⟨-, -, pin, sp, -, -, rfl, -⟩
  · exact hcm.1
  · exact ⟨fun _ => (next_index_eq hcm.2.1 hcm.2.2), fun _ => rfl⟩

theorem reachable_coupled {cfg : Config} (hwf : cfg.WF) {s : State} (h : Reachable cfg s) :
    Coupled cfg s := by
  induction h with
  | init pins0 s hs => exact setup_coupled hs
  | step s t s1 out hr hl ih => exact loop_coupled (reachable_inv hwf hr) ih hl

theorem pred_of_succ_emod {n : Nat} {a c : Int} (h0 : 0 ≤ a) (h1 : a < n)
    (hc : c = (a + 1) % (n : Int)) : a = (c - 1) % (n : Int) := by
  rw [hc, Int.sub_emod, Int.emod_emod, ← Int.sub_emod]
  rw [show a + 1 - 1 = a by ring]
  exact (Int.emod_eq_of_lt h0 h1).symm

/-- C16 (coupling invariant of the active relay): in every reachable state in
which a relay is active, `activeRelayIndex = (currentSensorIndex - 1) mod
NUM_SENSORS` and `currentRelayOffTime = lastCycleStartTime +
SENSOR_POWER_ON_DURATION` in `unsigned long` arithmetic (modulo `2^32`). -/
theorem coupling_invariant (cfg : Config) (hwf : cfg.WF) (s : State) (hr : Reachable cfg s)
    (ha : s.isRelayCurrentlyActive = true) :
    s.activeRelayIndex = (s.currentSensorIndex - 1) % (cfg.NUM_SENSORS : Int) ∧
    s.currentRelayOffTime
      = (s.lastCycleStartTime + cfg.SENSOR_POWER_ON_DURATION) % ULONG_MOD := by
  have hinv := reachable_inv hwf hr
  have hc := reachable_coupled hwf hr
  obtain ⟨h0, h1, -⟩ := hinv.busy ha
  exact ⟨pred_of_succ_emod h0 h1 (hc.next ha), hc.deadline ha⟩

theorem coupling_invariant_witness :
    megaBusy.activeRelayIndex
      = (megaBusy.currentSensorIndex - 1) % (megaConfig.NUM_SENSORS : Int) ∧
    megaBusy.currentRelayOffTime
      = (megaBusy.lastCycleStartTime + megaConfig.SENSOR_POWER_ON_DURATION) % ULONG_MOD :=
  coupling_invariant megaConfig megaConfig_wf megaBusy megaBusy_reachable rfl

/-! ## The read inside the power window -/

/-- C11 (the read happens on the powered slot inside its power window): for a
configuration with `SENSOR_POWER_ON_DURATION > SENSOR_STABILIZATION_DELAY`, a
reachable state with `currentSensorIndex = i` and any tick, `loop()` returns,
and if the tick starts a cycle then, after the lines of the relay-off part (at
most one relay-off line), it prints the cycle-start and relay-on lines of slot
`i` and then the sensor-value line of the same slot `i`, with the pin
`sensorSignalPins[i]` and the level `digitalRead` gives for that pin; nothing
is written after the relay-on, so at the read relay `i` is energized; the read
is `SENSOR_STABILIZATION_DELAY` after the relay-on, strictly before the
deadline `now + SENSOR_POWER_ON_DURATION`, also in the `unsigned long` values
printed and stored when that deadline is below `2^32`. -/
theorem read_inside_power_window (cfg : Config) (hwf : cfg.WF)
    (hPD : cfg.SENSOR_STABILIZATION_DELAY < cfg.SENSOR_POWER_ON_DURATION)
    (s : State) (hr : Reachable cfg s) (t : Tick) :
    ∃ s1 out, loop cfg s t = some (s1, out) ∧
      (startsCycle out = true →
        ∃ o1 pin sensorPin,
          arrayGet cfg.relayControlPins s.currentSensorIndex = some pin ∧
          arrayGet cfg.sensorSignalPins s.currentSensorIndex = some sensorPin ∧
          out = o1 ++
            [Event.cycleStart (millis t) s.currentSensorIndex,
             Event.relayOn (millis t) s.currentSensorIndex,
             Event.reading (uadd (millis t) cfg.SENSOR_STABILIZATION_DELAY)
               s.currentSensorIndex sensorPin (t.digitalRead sensorPin == HIGH)] ∧
          (o1 = [] ∨ o1 = [Event.relayOff (millis t) s.activeRelayIndex]) ∧
          s1.activeRelayIndex = s.currentSensorIndex ∧
          s1.isRelayCurrentlyActive = true ∧
          s1.pins pin = cfg.IS_RELAY_ACTIVE_HIGH ∧
          relayEnergized cfg s1 s.currentSensorIndex.toNat = true ∧
          s1.currentRelayOffTime = uadd (millis t) cfg.SENSOR_POWER_ON_DURATION ∧
          t.now + cfg.SENSOR_STABILIZATION_DELAY < t.now + cfg.SENSOR_POWER_ON_DURATION ∧
          (t.now + cfg.SENSOR_POWER_ON_DURATION < ULONG_MOD →
            uadd (millis t) cfg.SENSOR_STABILIZATION_DELAY < s1.currentRelayOffTime)) := by
  have hinv := reachable_inv hwf hr
  obtain ⟨s1, out, hl⟩ := loop_total hwf hinv t
  refine ⟨s1, out, hl, fun hst => ?_⟩
  obtain ⟨sm, o1, pin, sp, hm, ha, hd, hp, hq, rfl, rfl⟩ := loop_starts hl hst
  have hc := (manageActive_frame hm).1
  rw [hc] at hp hq
  refine ⟨o1, pin, sp, hp, hq, ?_, ?_, hc, rfl, ?_, ?_, rfl, by omega, fun hw => ?_⟩
  · simp only [startEvents, hc]
  · rcases manageActive_cases hm with ⟨-, -, rfl⟩ | ⟨-, -, -, _, -, -, rfl⟩
    · exact Or.inl rfl
    · exact Or.inr rfl
  · show writeRelayOn cfg sm.pins pin pin = _
    rw [writeRelayOn_eq]
    simp
  · exact (relayEnergized_update_same (arrayGet_eq_some.mp hp).2
      (writeRelayOn_eq cfg sm.pins pin)).trans (by simp)
  · have hmt : millis t = t.now := millis_of_lt (by omega)
    show uadd (millis t) cfg.SENSOR_STABILIZATION_DELAY
      < uadd (millis t) cfg.SENSOR_POWER_ON_DURATION
    simp only [uadd, hmt]
    rw [Nat.mod_eq_of_lt hw, Nat.mod_eq_of_lt (by omega)]
    omega

theorem read_inside_power_window_witness :
    ∃ s1 out, loop megaConfig megaInit (tickAt 5000 true) = some (s1, out) ∧
      (startsCycle out = true →
        ∃ o1 pin sensorPin,
          arrayGet megaConfig.relayControlPins megaInit.currentSensorIndex = some pin ∧
          arrayGet megaConfig.sensorSignalPins megaInit.currentSensorIndex = some sensorPin ∧
          out = o1 ++
            [Event.cycleStart (millis (tickAt 5000 true)) megaInit.currentSensorIndex,
             Event.relayOn (millis (tickAt 5000 true)) megaInit.currentSensorIndex,
             Event.reading
               (uadd (millis (tickAt 5000 true)) megaConfig.SENSOR_STABILIZATION_DELAY)
               megaInit.currentSensorIndex sensorPin
               ((tickAt 5000 true).digitalRead sensorPin == HIGH)] ∧
          (o1 = [] ∨ o1 = [Event.relayOff (millis (tickAt 5000 true))
            megaInit.activeRelayIndex]) ∧
          s1.activeRelayIndex = megaInit.currentSensorIndex ∧
          s1.isRelayCurrentlyActive = true ∧
          s1.pins pin = megaConfig.IS_RELAY_ACTIVE_HIGH ∧
          relayEnergized megaConfig s1 megaInit.currentSensorIndex.toNat = true ∧
          s1.currentRelayOffTime
            = uadd (millis (tickAt 5000 true)) megaConfig.SENSOR_POWER_ON_DURATION ∧
          (tickAt 5000 true).now + megaConfig.SENSOR_STABILIZATION_DELAY
            < (tickAt 5000 true).now + megaConfig.SENSOR_POWER_ON_DURATION ∧
          ((tickAt 5000 true).now + megaConfig.SENSOR_POWER_ON_DURATION < ULONG_MOD →
            uadd (millis (tickAt 5000 true)) megaConfig.SENSOR_STABILIZATION_DELAY
              < s1.currentRelayOffTime)) :=
  read_inside_power_window megaConfig megaConfig_wf (by decide) megaInit megaInit_reachable
    (tickAt 5000 true)

/-! ## Start-up and the frame of the relay-off step -/

theorem setup_eq_initState {cfg : Config} {pins0 : Nat → Bool} {s : State}
    (h : setup cfg pins0 = some s) :
    s.currentSensorIndex = 0 ∧ s.lastCycleStartTime = 0 ∧ s.currentRelayOffTime = 0 ∧
      s.isRelayCurrentlyActive = false ∧ s.activeRelayIndex = -1 := by
  unfold setup at h
  split at h
  · exact absurd h (by simp)
  · split at h
    · exact absurd h (by simp)
    · simp only [Option.some.injEq] at h
      rw [← h]
      exact ⟨rfl, rfl, rfl, rfl, rfl⟩

theorem usub_zero_millis (t : Tick) : usub (millis t) 0 = millis t := by
  simp only [usub, millis, ULONG_MOD]
  omega

/-- C15 (first cycle after start-up): `setup()` returns, and from the state it
leaves (`lastCycleStartTime = 0`, no relay active) any ticks whose timestamp
(the value of `millis()`) is below `SENSOR_READ_CYCLE_INTERVAL` print nothing
and change nothing, and a tick whose timestamp has reached
`SENSOR_READ_CYCLE_INTERVAL` then starts the first cycle, which services slot
0: it prints the cycle-start, relay-on and sensor-value lines of slot 0 and
leaves relay 0 active. -/
theorem first_cycle (cfg : Config) (hwf : cfg.WF) (pins0 : Nat → Bool) (ts : List Tick)
    (t : Tick)
    (hts : ∀ u ∈ ts, millis u < cfg.SENSOR_READ_CYCLE_INTERVAL)
    (ht : cfg.SENSOR_READ_CYCLE_INTERVAL ≤ millis t) :
    ∃ s0 s1 pin sensorPin, setup cfg pins0 = some s0 ∧
      run cfg s0 ts = some (s0, []) ∧
      (∀ u ∈ ts, loop cfg s0 u = some (s0, [])) ∧
      arrayGet cfg.relayControlPins 0 = some pin ∧
      arrayGet cfg.sensorSignalPins 0 = some sensorPin ∧
      loop cfg s0 t = some (s1,
        [Event.cycleStart (millis t) 0, Event.relayOn (millis t) 0,
         Event.reading (uadd (millis t) cfg.SENSOR_STABILIZATION_DELAY) 0 sensorPin
           (t.digitalRead sensorPin == HIGH)]) ∧
      run cfg s0 (ts ++ [t]) = some (s1,
        [Event.cycleStart (millis t) 0, Event.relayOn (millis t) 0,
         Event.reading (uadd (millis t) cfg.SENSOR_STABILIZATION_DELAY) 0 sensorPin
           (t.digitalRead sensorPin == HIGH)]) ∧
      s1.isRelayCurrentlyActive = true ∧ s1.activeRelayIndex = 0 ∧
      relayEnergized cfg s1 0 = true := by
  obtain ⟨s0, hs0, -⟩ := setup_ok hwf pins0
  obtain ⟨hc, hl, -, ha, hi⟩ := setup_eq_initState hs0
  have hinv := setup_inv hwf hs0
  have hquiet : ∀ u : Tick, millis u < cfg.SENSOR_READ_CYCLE_INTERVAL →
      loop cfg s0 u = some (s0, []) := by
    intro u hu
    apply loop_noop
    · rintro ⟨hb, -⟩
      rw [ha] at hb
      exact absurd hb (by simp)
    · rintro ⟨-, hle⟩
      rw [hl, usub_zero_millis] at hle
      omega
  have hrun : run cfg s0 ts = some (s0, []) := by
    apply run_noop
    intro u hu
    constructor
    · rintro ⟨hb, -⟩
      rw [ha] at hb
      exact absurd hb (by simp)
    · rintro ⟨-, hle⟩
      rw [hl, usub_zero_millis] at hle
      have := hts u hu
      omega
  have hpos := hwf.sensors_pos
  have hle := hwf.sensors_le
  obtain ⟨pin, hp⟩ := arrayGet_isSome cfg.relayControlPins (i := 0) (le_refl _)
    (by rw [hwf.relays_len]; omega)
  obtain ⟨sp, hq⟩ := arrayGet_isSome cfg.sensorSignalPins (i := 0) (le_refl _)
    (by rw [hwf.sensors_len]; omega)
  have hstart : loop cfg s0 t = some (startState cfg s0 (millis t) pin,
      [Event.cycleStart (millis t) 0, Event.relayOn (millis t) 0,
       Event.reading (uadd (millis t) cfg.SENSOR_STABILIZATION_DELAY) 0 sp
         (t.digitalRead sp == HIGH)]) := by
    have h := loop_start_at (s := s0) (t := t) (millis t) rfl ha
      (by rw [hl, usub_zero_millis]; exact ht) (by rw [hc]; exact hp) (by rw [hc]; exact hq)
    rw [h]
    simp only [startEvents, hc]
  refine ⟨s0, startState cfg s0 (millis t) pin, pin, sp, hs0, hrun,
    fun u hu => hquiet u (hts u hu), hp, hq, hstart, ?_, rfl, hc, ?_⟩
  · simpa using run_append hrun (run_singleton hstart)
  · exact (relayEnergized_update_same (i := 0) (by simpa [arrayGet] using hp)
      (writeRelayOn_eq cfg s0.pins pin)).trans (by simp)

theorem first_cycle_witness :
    ∃ s0 s1 pin sensorPin, setup megaConfig resetPins = some s0 ∧
      run megaConfig s0 [tickAt 0 true, tickAt 4999 true] = some (s0, []) ∧
      (∀ u ∈ [tickAt 0 true, tickAt 4999 true], loop megaConfig s0 u = some (s0, [])) ∧
      arrayGet megaConfig.relayControlPins 0 = some pin ∧
      arrayGet megaConfig.sensorSignalPins 0 = some sensorPin ∧
      loop megaConfig s0 (tickAt 5000 true) = some (s1,
        [Event.cycleStart (millis (tickAt 5000 true)) 0,
         Event.relayOn (millis (tickAt 5000 true)) 0,
         Event.reading (uadd (millis (tickAt 5000 true)) megaConfig.SENSOR_STABILIZATION_DELAY)
           0 sensorPin ((tickAt 5000 true).digitalRead sensorPin == HIGH)]) ∧
      run megaConfig s0 ([tickAt 0 true, tickAt 4999 true] ++ [tickAt 5000 true]) = some (s1,
        [Event.cycleStart (millis (tickAt 5000 true)) 0,
         Event.relayOn (millis (tickAt 5000 true)) 0,
         Event.reading (uadd (millis (tickAt 5000 true)) megaConfig.SENSOR_STABILIZATION_DELAY)
           0 sensorPin ((tickAt 5000 true).digitalRead sensorPin == HIGH)]) ∧
      s1.isRelayCurrentlyActive = true ∧ s1.activeRelayIndex = 0 ∧
      relayEnergized megaConfig s1 0 = true :=
  first_cycle megaConfig megaConfig_wf resetPins [tickAt 0 true, tickAt 4999 true]
    (tickAt 5000 true) (by decide) (by decide)

/-- C17 (frame of the relay-off step): in a reachable state with relay `a`
active, a tick that satisfies the relay-off condition (`millis() >=
currentRelayOffTime`) but not the cycle-start condition (`millis() -
lastCycleStartTime < SENSOR_READ_CYCLE_INTERVAL` in `unsigned long`
arithmetic) returns, prints only the relay-off line of slot `a`, sets
`isRelayCurrentlyActive` to false and `activeRelayIndex` to `-1`, writes the
de-energized level to the pin of relay `a` and to no other pin;
`currentSensorIndex`, `lastCycleStartTime`, `currentRelayOffTime` and every
other relay output are unchanged, and no sensor-value line is printed (no
sensor is read). -/
theorem relay_off_frame (cfg : Config) (hwf : cfg.WF) (s : State) (hr : Reachable cfg s)
    (ha : s.isRelayCurrentlyActive = true) (t : Tick)
    (hd : s.currentRelayOffTime ≤ millis t)
    (hI : usub (millis t) s.lastCycleStartTime < cfg.SENSOR_READ_CYCLE_INTERVAL) :
    ∃ s1 pin, loop cfg s t = some (s1, [Event.relayOff (millis t) s.activeRelayIndex]) ∧
      arrayGet cfg.relayControlPins s.activeRelayIndex = some pin ∧
      s1.isRelayCurrentlyActive = false ∧ s1.activeRelayIndex = -1 ∧
      s1.pins pin = (!cfg.IS_RELAY_ACTIVE_HIGH) ∧
      relayEnergized cfg s1 s.activeRelayIndex.toNat = false ∧
      s1.currentSensorIndex = s.currentSensorIndex ∧
      s1.lastCycleStartTime = s.lastCycleStartTime ∧
      s1.currentRelayOffTime = s.currentRelayOffTime ∧
      (∀ q : Nat, q ≠ pin → s1.pins q = s.pins q) ∧
      (∀ i : Nat, (i : Int) ≠ s.activeRelayIndex →
        relayEnergized cfg s1 i = relayEnergized cfg s i) ∧
      [Event.relayOff (millis t) s.activeRelayIndex].any Event.isReading = false := by
  have hinv := reachable_inv hwf hr
  obtain ⟨h0, h1, -⟩ := hinv.busy ha
  have hle := hwf.sensors_le
  obtain ⟨pin, hp⟩ := arrayGet_isSome cfg.relayControlPins h0
    (by rw [hwf.relays_len]; omega)
  have hl := loop_off_at (s := s) (t := t) (millis t) rfl ha (by omega) hd hp
    (by omega)
  have hpins : (offState cfg s pin).pins
      = Function.update s.pins pin (!cfg.IS_RELAY_ACTIVE_HIGH) := writeRelayOff_eq cfg s.pins pin
  refine ⟨offState cfg s pin, pin, hl, hp, rfl, rfl, ?_, ?_, rfl, rfl, rfl, ?_, ?_, rfl⟩
  · rw [hpins]; simp
  · exact (relayEnergized_update_same (arrayGet_eq_some.mp hp).2 hpins).trans (by simp)
  · intro q hq
    rw [hpins, Function.update_noteq hq]
  · intro i hi
    exact relayEnergized_update_other hwf.relays_nodup (arrayGet_eq_some.mp hp).2
      (by omega) hpins

theorem relay_off_frame_witness :
    ∃ s1 pin, loop megaConfig megaBusy (tickAt 6000 true)
        = some (s1, [Event.relayOff (millis (tickAt 6000 true)) megaBusy.activeRelayIndex]) ∧
      arrayGet megaConfig.relayControlPins megaBusy.activeRelayIndex = some pin ∧
      s1.isRelayCurrentlyActive = false ∧ s1.activeRelayIndex = -1 ∧
      s1.pins pin = (!megaConfig.IS_RELAY_ACTIVE_HIGH) ∧
      relayEnergized megaConfig s1 megaBusy.activeRelayIndex.toNat = false ∧
      s1.currentSensorIndex = megaBusy.currentSensorIndex ∧
      s1.lastCycleStartTime = megaBusy.lastCycleStartTime ∧
      s1.currentRelayOffTime = megaBusy.currentRelayOffTime ∧
      (∀ q : Nat, q ≠ pin → s1.pins q = megaBusy.pins q) ∧
      (∀ i : Nat, (i : Int) ≠ megaBusy.activeRelayIndex →
        relayEnergized megaConfig s1 i = relayEnergized megaConfig megaBusy i) ∧
      [Event.relayOff (millis (tickAt 6000 true)) megaBusy.activeRelayIndex].any
        Event.isReading = false :=
  relay_off_frame megaConfig megaConfig_wf megaBusy megaBusy_reachable rfl (tickAt 6000 true)
    (by decide) (by decide)

/-! ## Timer wrap-around -/

/-- C14 (hold time across timer wrap-around) fails on the sketch.  With the
sketch's constants, from the state left by `setup()`:
the tick at `2^32 - 500` starts the cycle of slot 0 and stores the relay-off
time `(2^32 - 500 + 1000) mod 2^32 = 500`; the next tick, at `2^32 - 400`, has
wrapped elapsed time `100 < 1000` and yet switches relay 0 off, because
`loop()` compares `currentTime >= currentRelayOffTime` on absolute values.
Conversely, after a cycle started at `2^32 - 2000` (relay-off time
`2^32 - 1000`), a tick after the wrap with `millis() = 100` has wrapped elapsed
time `2100 >= 1000` and does not switch the relay off. -/
theorem wraparound_breaks_hold_time :
    setup megaConfig resetPins = some megaInit ∧
    loop megaConfig megaInit (tickAt 4294966796 true)
      = some (startState megaConfig megaInit 4294966796 54,
          startEvents megaConfig megaInit (tickAt 4294966796 true) 4294966796 2) ∧
    (startState megaConfig megaInit 4294966796 54).currentRelayOffTime = 500 ∧
    usub (millis (tickAt 4294966896 true)) 4294966796 = 100 ∧
    100 < megaConfig.SENSOR_POWER_ON_DURATION ∧
    loop megaConfig (startState megaConfig megaInit 4294966796 54) (tickAt 4294966896 true)
      = some (offState megaConfig (startState megaConfig megaInit 4294966796 54) 54,
          [Event.relayOff 4294966896 0]) ∧
    relayEnergized megaConfig
      (offState megaConfig (startState megaConfig megaInit 4294966796 54) 54) 0 = false ∧
    loop megaConfig megaInit (tickAt 4294965296 true)
      = some (startState megaConfig megaInit 4294965296 54,
          startEvents megaConfig megaInit (tickAt 4294965296 true) 4294965296 2) ∧
    millis (tickAt 4294967396 true) = 100 ∧
    usub (millis (tickAt 4294967396 true)) 4294965296 = 2100 ∧
    megaConfig.SENSOR_POWER_ON_DURATION ≤ 2100 ∧
    loop megaConfig (startState megaConfig megaInit 4294965296 54) (tickAt 4294967396 true)
      = some (startState megaConfig megaInit 4294965296 54, []) ∧
    relayEnergized megaConfig (startState megaConfig megaInit 4294965296 54) 0 = true :=
  ⟨rfl, rfl, rfl, by decide, by decide, rfl, rfl, rfl, by decide, by decide, by decide, rfl, rfl⟩

/-! ## Alternation of the relay lines -/

theorem relayTrace_append (a b : List Event) :
    relayTrace (a ++ b) = relayTrace a ++ relayTrace b := by
  simp [relayTrace, List.filterMap_append]

theorem relayTrace_startEvents (cfg : Config) (s : State) (t : Tick) (now sp : Nat) :
    relayTrace (startEvents cfg s t now sp) = [(true, s.currentSensorIndex)] := rfl

/-- One tick continues the alternation. -/
theorem loop_alternation {cfg : Config} {s s1 : State} {t : Tick} {out : List Event}
    (hinv : Inv cfg s) (hc : Coupled cfg s) (h : loop cfg s t = some (s1, out)) (k : Nat) :
    alternation cfg.NUM_SENSORS s.isRelayCurrentlyActive (phaseSlot s)
        ((relayTrace out).length + k)
      = relayTrace out
          ++ alternation cfg.NUM_SENSORS s1.isRelayCurrentlyActive (phaseSlot s1) k := by
  obtain ⟨sm, o1, o2, hm, hs, rfl⟩ := loop_eq_some.mp h
  rw [relayTrace_append]
  rcases manageActive_cases hm with ⟨-, rfl, rfl⟩ | ⟨ha, -, -, pin, -, rfl, rfl⟩
  · rcases startCycle_cases hs with ⟨-, rfl, rfl⟩ | ⟨ha2, -, pin2, sp, -, -, rfl, rfl⟩
    · simp [relayTrace]
    · rw [relayTrace_startEvents]
      simp only [relayTrace, List.filterMap_nil, List.nil_append, List.length_singleton,
        phaseSlot, ha2, startState, Bool.false_eq_true, if_false, if_true]
      rw [Nat.add_comm, alternation]
      rfl
  · have hnext := hc.next ha
    rcases startCycle_cases hs with ⟨-, rfl, rfl⟩ | ⟨ha2, -, pin2, sp, -, -, rfl, rfl⟩
    · simp only [relayTrace, List.filterMap_cons, List.filterMap_nil, List.append_nil,
        List.length_singleton, phaseSlot, ha, offState, if_true, Bool.false_eq_true, if_false]
      rw [Nat.add_comm, alternation, ← hnext]
      rfl
    · rw [relayTrace_startEvents]
      simp only [relayTrace, List.filterMap_cons, List.filterMap_nil, List.length_cons,
        List.length_nil, List.cons_append, List.nil_append, phaseSlot, ha, offState, startState,
        if_true]
      rw [show 0 + 1 + 1 + k = (k + 1) + 1 by omega, alternation, alternation, ← hnext]

theorem run_alternation {cfg : Config} (hwf : cfg.WF) (ts : List Tick) {s : State}
    (hinv : Inv cfg s) (hc : Coupled cfg s) :
    ∃ s2 out, run cfg s ts = some (s2, out) ∧
      relayTrace out
        = alternation cfg.NUM_SENSORS s.isRelayCurrentlyActive (phaseSlot s)
            (relayTrace out).length := by
  induction ts generalizing s with
  | nil => exact ⟨s, [], rfl, by cases s.isRelayCurrentlyActive <;> rfl⟩
  | cons t rest ih =>
    obtain ⟨s1, o1, h1⟩ := loop_total hwf hinv t
    obtain ⟨s2, o2, h2, htr⟩ := ih (loop_inv hwf hinv h1) (loop_coupled hinv hc h1)
    refine ⟨s2, o1 ++ o2, by simp only [run, h1, h2], ?_⟩
    rw [relayTrace_append, List.length_append, loop_alternation hinv hc h1, ← htr]

theorem alternation_closed (n : Nat) (k : Nat) : ∀ m : Nat,
    alternation n false ((m : Int) % (n : Int)) k
      = (List.range k).map fun (j : Nat) =>
          (j % 2 == 0, ((m + j / 2 : Nat) : Int) % (n : Int)) := by
  induction k using Nat.twoStepInduction with
  | zero => intro m; rfl
  | one => intro m; simp [alternation, List.range_succ]
  | more k ih _ =>
    intro m
    have hstep : ((m : Int) % (n : Int) + 1) % (n : Int) = ((m + 1 : Nat) : Int) % (n : Int) := by
      rw [Int.emod_add_emod]
      norm_cast
    rw [alternation, alternation, hstep, ih (m + 1)]
    rw [List.range_succ_eq_map, List.range_succ_eq_map]
    simp only [List.map_cons, List.map_map, Nat.zero_div, Nat.add_zero]
    refine congrArg₂ _ (by simp) (congrArg₂ _ (by simp) ?_)
    apply List.map_congr_left
    intro j _
    simp only [Function.comp, Nat.succ_eq_add_one]
    have h1 : (j + 1 + 1) % 2 = j % 2 := by omega
    have h2 : (j + 1 + 1) / 2 = j / 2 + 1 := by omega
    rw [h1, h2]
    congr 3
    omega

/-- C12 (IDLE/ENERGIZED alternation of the log): `setup()` returns, any
sequence of ticks from the state it leaves runs to completion, and the relay
lines it prints form the alternating sequence that starts with relay-on of
slot 0: relay-on and relay-off lines strictly alternate, each relay-off names
the slot of the relay-on just before it, and each relay-on names the successor
modulo `NUM_SENSORS` of the slot of the previous relay-on.  In closed form, the
`j`-th relay line (from 0) is a relay-on if `j` is even and a relay-off if `j`
is odd, of slot `(j / 2) mod NUM_SENSORS`. -/
theorem event_alternation (cfg : Config) (hwf : cfg.WF) (pins0 : Nat → Bool)
    (ts : List Tick) :
    ∃ s0 s out, setup cfg pins0 = some s0 ∧ run cfg s0 ts = some (s, out) ∧
      relayTrace out = alternation cfg.NUM_SENSORS false 0 (relayTrace out).length ∧
      relayTrace out
        = (List.range (relayTrace out).length).map fun (j : Nat) =>
            (j % 2 == 0, ((j / 2 : Nat) : Int) % (cfg.NUM_SENSORS : Int)) := by
  obtain ⟨s0, hs0, -⟩ := setup_ok hwf pins0
  obtain ⟨hc, -, -, ha, -⟩ := setup_eq_initState hs0
  obtain ⟨s, out, hrun, htr⟩ := run_alternation hwf ts (setup_inv hwf hs0) (setup_coupled hs0)
  have hph : phaseSlot s0 = 0 := by simp [phaseSlot, ha, hc]
  rw [ha, hph] at htr
  refine ⟨s0, s, out, hs0, hrun, htr, ?_⟩
  have h := alternation_closed cfg.NUM_SENSORS (relayTrace out).length 0
  simp only [Nat.cast_zero, Int.zero_emod, Nat.zero_add] at h
  rw [← h]
  exact htr

theorem event_alternation_witness :
    ∃ s0 s out, setup megaConfig resetPins = some s0 ∧
      run megaConfig s0 [tickAt 5000 true, tickAt 6000 true, tickAt 10000 false]
        = some (s, out) ∧
      relayTrace out = alternation megaConfig.NUM_SENSORS false 0 (relayTrace out).length ∧
      relayTrace out
        = (List.range (relayTrace out).length).map fun (j : Nat) =>
            (j % 2 == 0, ((j / 2 : Nat) : Int) % (megaConfig.NUM_SENSORS : Int)) :=
  event_alternation megaConfig megaConfig_wf resetPins
    [tickAt 5000 true, tickAt 6000 true, tickAt 10000 false]

/-! ## Polarity -/

theorem flipPolarity_wf {cfg : Config} (hwf : cfg.WF) : (flipPolarity cfg).WF :=
  ⟨hwf.sensors_len, hwf.relays_len, hwf.sensors_pos, hwf.sensors_le, hwf.relays_nodup⟩

theorem arrayGet_mem {xs : List Nat} {i : Int} {p : Nat} (h : arrayGet xs i = some p) :
    p ∈ xs :=
  List.getElem?_mem (arrayGet_eq_some.mp h).2

theorem mirror_update {cfg : Config} {s s2 : State} (hm : Mirror cfg s s2) (pin : Nat)
    (v : Bool) (f g : Nat → Bool) (hf : f = Function.update s.pins pin v)
    (hg : g = Function.update s2.pins pin (!v)) :
    ∀ q ∈ cfg.relayControlPins, g q = !f q := by
  intro q hq
  rw [hf, hg]
  by_cases h : q = pin
  · subst h; simp
  · rw [Function.update_noteq h, Function.update_noteq h]
    exact hm.pins q hq

theorem manageActive_mirror {cfg : Config} {s s2 sm : State} {n : Nat} {o : List Event}
    (hm : Mirror cfg s s2) (h : manageActive cfg s n = some (sm, o)) :
    ∃ sm2, manageActive (flipPolarity cfg) s2 n = some (sm2, o) ∧ Mirror cfg sm sm2 := by
  rcases manageActive_cases h with ⟨hc, rfl, rfl⟩ | ⟨ha, hi, hd, pin, hp, rfl, rfl⟩
  · refine ⟨s2, manageActive_idle ?_, hm⟩
    rw [hm.active, hm.relay, hm.deadline]
    exact hc
  · refine ⟨offState (flipPolarity cfg) s2 pin, ?_, ?_⟩
    · have h2 := @manageActive_off (flipPolarity cfg) s2 n pin
        (by rw [hm.active]; exact ha) (by rw [hm.relay]; exact hi)
        (by rw [hm.deadline]; exact hd) (by rw [hm.relay]; exact hp)
      rw [h2, hm.relay]
    · exact ⟨hm.index, hm.last, hm.deadline, rfl, rfl,
        mirror_update hm pin (!cfg.IS_RELAY_ACTIVE_HIGH) _ _ (writeRelayOff_eq cfg s.pins pin)
          (writeRelayOff_eq (flipPolarity cfg) s2.pins pin)⟩

theorem startCycle_mirror {cfg : Config} {s s2 s1 : State} {t : Tick} {n : Nat}
    {o : List Event} (hm : Mirror cfg s s2) (h : startCycle cfg s t n = some (s1, o)) :
    ∃ s3, startCycle (flipPolarity cfg) s2 t n = some (s3, o) ∧ Mirror cfg s1 s3 := by
  rcases startCycle_cases h with ⟨hc, rfl, rfl⟩ | ⟨ha, hd, pin, sp, hp, hq, rfl, rfl⟩
  · refine ⟨s2, startCycle_idle ?_, hm⟩
    rw [hm.active, hm.last]
    exact hc
  · refine ⟨startState (flipPolarity cfg) s2 n pin, ?_, ?_⟩
    · have h2 := @startCycle_start (flipPolarity cfg) s2 t n pin sp
        (by rw [hm.active]; exact ha) (by rw [hm.last]; exact hd)
        (by rw [hm.index]; exact hp) (by rw [hm.index]; exact hq)
      rw [h2]
      simp only [startEvents, hm.index]
      rfl
    · refine ⟨?_, rfl, rfl, rfl, hm.index, ?_⟩
      · simp only [startState, hm.index]
        rfl
      · have := mirror_update hm pin cfg.IS_RELAY_ACTIVE_HIGH _ _
          (writeRelayOn_eq cfg s.pins pin)
          (writeRelayOn_eq (flipPolarity cfg) s2.pins pin)
        exact this

theorem loop_mirror {cfg : Config} {s s2 s1 : State} {t : Tick} {out : List Event}
    (hm : Mirror cfg s s2) (h : loop cfg s t = some (s1, out)) :
    ∃ s3, loop (flipPolarity cfg) s2 t = some (s3, out) ∧ Mirror cfg s1 s3 := by
  obtain ⟨sm, o1, o2, h1, h2, rfl⟩ := loop_eq_some.mp h
  obtain ⟨sm2, h3, hm2⟩ := manageActive_mirror hm h1
  obtain ⟨s3, h4, hm3⟩ := startCycle_mirror hm2 h2
  exact ⟨s3, loop_eq_some.mpr ⟨sm2, o1, o2, h3, h4, rfl⟩, hm3⟩

theorem run_mirror {cfg : Config} (ts : List Tick) {s s2 s1 : State} {out : List Event}
    (hm : Mirror cfg s s2) (h : run cfg s ts = some (s1, out)) :
    ∃ s3, run (flipPolarity cfg) s2 ts = some (s3, out) ∧ Mirror cfg s1 s3 := by
  induction ts generalizing s s2 out with
  | nil =>
    simp only [run, Option.some.injEq, Prod.mk.injEq] at h
    obtain ⟨rfl, rfl⟩ := h
    exact ⟨s2, rfl, hm⟩
  | cons t rest ih =>
    simp only [run] at h
    cases hl : loop cfg s t with
    | none => simp [hl] at h
    | some r =>
      obtain ⟨sa, oa⟩ := r
      cases hr : run cfg sa rest with
      | none => simp [hl, hr] at h
      | some r2 =>
        obtain ⟨sb, ob⟩ := r2
        simp only [hl, hr, Option.some.injEq, Prod.mk.injEq] at h
        obtain ⟨rfl, rfl⟩ := h
        obtain ⟨sa2, hl2, hma⟩ := loop_mirror hm hl
        obtain ⟨sb2, hr2, hmb⟩ := ih hma hr
        exact ⟨sb2, by simp only [run, hl2, hr2], hmb⟩

theorem setup_off_levels {cfg : Config} (hwf : cfg.WF) {pins0 : Nat → Bool} {s : State}
    (h : setup cfg pins0 = some s) :
    ∀ pin ∈ cfg.relayControlPins, s.pins pin = (!cfg.IS_RELAY_ACTIVE_HIGH) := by
  obtain ⟨s2, h2, -, -, -, -, -, he⟩ := setup_ok hwf pins0
  rw [h] at h2
  simp only [Option.some.injEq] at h2
  subst h2
  intro pin hpin
  obtain ⟨i, hi⟩ := List.mem_iff_getElem?.mp hpin
  have := he i
  simp only [relayEnergized, hi] at this
  cases hv : s.pins pin <;> cases hA : cfg.IS_RELAY_ACTIVE_HIGH <;> simp [hv, hA] at this ⊢

theorem ite_not_level (b : Bool) : (!b) = (if b then LOW else HIGH) := by
  cases b <;> rfl

theorem ite_level (b : Bool) : b = (if b then HIGH else LOW) := by
  cases b <;> rfl

/-- C13 (polarity is abstracted uniformly): for a configuration of either
polarity and the same configuration with the polarity flipped, `setup()`
returns and leaves every relay control pin at the de-energized level of its
polarity (`LOW` if active-high, `HIGH` if active-low), so no relay is
energized; the relay-off part of `loop()` leaves the pin of the relay it names
at the de-energized level and the cycle-start part leaves the pin of the new
active relay at the energized level (`HIGH` if active-high, `LOW` if
active-low); and for every sequence of ticks (with their sensor levels), after
each number `k` of ticks the two runs have printed the same lines and reached
states with the same five scheduler variables and with every relay control pin
at inverted levels. -/
theorem polarity_uniform (cfg : Config) (hwf : cfg.WF) (pins0 pins1 : Nat → Bool)
    (ts : List Tick) :
    ∃ s0 r0, setup cfg pins0 = some s0 ∧ setup (flipPolarity cfg) pins1 = some r0 ∧
      (∀ pin ∈ cfg.relayControlPins,
        s0.pins pin = (if cfg.IS_RELAY_ACTIVE_HIGH then LOW else HIGH) ∧
        r0.pins pin = (if cfg.IS_RELAY_ACTIVE_HIGH then HIGH else LOW)) ∧
      (∀ i : Nat, relayEnergized cfg s0 i = false ∧
        relayEnergized (flipPolarity cfg) r0 i = false) ∧
      (∀ k : Nat, ∃ s r out, run cfg s0 (ts.take k) = some (s, out) ∧
        run (flipPolarity cfg) r0 (ts.take k) = some (r, out) ∧ Mirror cfg s r) ∧
      (∀ (s sm : State) (n T : Nat) (a : Int),
        manageActive cfg s n = some (sm, [Event.relayOff T a]) →
        ∃ pin, arrayGet cfg.relayControlPins a = some pin ∧
          sm.pins pin = (if cfg.IS_RELAY_ACTIVE_HIGH then LOW else HIGH)) ∧
      (∀ (s s1 : State) (t : Tick) (n : Nat) (out : List Event),
        startCycle cfg s t n = some (s1, out) → startsCycle out = true →
        ∃ pin, arrayGet cfg.relayControlPins s1.activeRelayIndex = some pin ∧
          s1.pins pin = (if cfg.IS_RELAY_ACTIVE_HIGH then HIGH else LOW)) := by
  have hwf2 := flipPolarity_wf hwf
  obtain ⟨s0, hs0, -, -, -, -, -, he0⟩ := setup_ok hwf pins0
  obtain ⟨r0, hr0, -, -, -, -, -, he1⟩ := setup_ok hwf2 pins1
  obtain ⟨c0, l0, d0, a0, i0⟩ := setup_eq_initState hs0
  obtain ⟨c1, l1, d1, a1, i1⟩ := setup_eq_initState hr0
  have hoff0 := setup_off_levels hwf hs0
  have hoff1 := setup_off_levels hwf2 hr0
  have hflip : (flipPolarity cfg).IS_RELAY_ACTIVE_HIGH = !cfg.IS_RELAY_ACTIVE_HIGH := rfl
  have hmir : Mirror cfg s0 r0 :=
    ⟨by rw [c0, c1], by rw [l0, l1], by rw [d0, d1], by rw [a0, a1], by rw [i0, i1],
      fun pin hpin => by rw [hoff0 pin hpin, hoff1 pin hpin, hflip]⟩
  refine ⟨s0, r0, hs0, hr0, ?_, fun i => ⟨he0 i, he1 i⟩, ?_, ?_, ?_⟩
  · intro pin hpin
    refine ⟨(hoff0 pin hpin).trans (ite_not_level _), ?_⟩
    rw [hoff1 pin hpin, hflip, Bool.not_not]
    exact ite_level _
  · intro k
    obtain ⟨s, out, hrun, -⟩ := run_total hwf (ts.take k) (setup_inv hwf hs0)
    obtain ⟨r, hrun2, hm⟩ := run_mirror (ts.take k) hmir hrun
    exact ⟨s, r, out, hrun, hrun2, hm⟩
  · intro s sm n T a h
    rcases manageActive_cases h with ⟨-, -, hnil⟩ | ⟨-, -, -, pin, hp, rfl, hev⟩
    · exact absurd hnil (by simp)
    · simp only [List.cons.injEq, Event.relayOff.injEq, and_true] at hev
      refine ⟨pin, by rw [hev.2]; exact hp, ?_⟩
      show writeRelayOff cfg s.pins pin pin = _
      rw [writeRelayOff_eq, Function.update_same]
      exact ite_not_level _
  · intro s s1 t n out h hst
    rcases startCycle_cases h with ⟨-, -, rfl⟩ | ⟨-, -, pin, sp, hp, -, rfl, -⟩
    · exact absurd hst (by simp [startsCycle])
    · refine ⟨pin, hp, ?_⟩
      show writeRelayOn cfg s.pins pin pin = _
      rw [writeRelayOn_eq, Function.update_same]
      exact ite_level _

theorem polarity_uniform_witness :
    ∃ s0 r0, setup megaConfig resetPins = some s0 ∧
      setup (flipPolarity megaConfig) resetPins = some r0 ∧
      (∀ pin ∈ megaConfig.relayControlPins,
        s0.pins pin = (if megaConfig.IS_RELAY_ACTIVE_HIGH then LOW else HIGH) ∧
        r0.pins pin = (if megaConfig.IS_RELAY_ACTIVE_HIGH then HIGH else LOW)) ∧
      (∀ i : Nat, relayEnergized megaConfig s0 i = false ∧
        relayEnergized (flipPolarity megaConfig) r0 i = false) ∧
      (∀ k : Nat, ∃ s r out,
        run megaConfig s0 ([tickAt 5000 true, tickAt 6000 false].take k) = some (s, out) ∧
        run (flipPolarity megaConfig) r0 ([tickAt 5000 true, tickAt 6000 false].take k)
          = some (r, out) ∧ Mirror megaConfig s r) ∧
      (∀ (s sm : State) (n T : Nat) (a : Int),
        manageActive megaConfig s n = some (sm, [Event.relayOff T a]) →
        ∃ pin, arrayGet megaConfig.relayControlPins a = some pin ∧
          sm.pins pin = (if megaConfig.IS_RELAY_ACTIVE_HIGH then LOW else HIGH)) ∧
      (∀ (s s1 : State) (t : Tick) (n : Nat) (out : List Event),
        startCycle megaConfig s t n = some (s1, out) → startsCycle out = true →
        ∃ pin, arrayGet megaConfig.relayControlPins s1.activeRelayIndex = some pin ∧
          s1.pins pin = (if megaConfig.IS_RELAY_ACTIVE_HIGH then HIGH else LOW)) :=
  polarity_uniform megaConfig megaConfig_wf resetPins resetPins
    [tickAt 5000 true, tickAt 6000 false]

end Uss
